import Mathlib

/-!
Verification development for the NimbusAI agent system.

This file gives a shallow embedding, in Lean 4, of the components of the
repository that its design document makes claims about:

* the capability gate (`Sandbox` class in `src/src/server/providers/ollama.ts`),
* the tool-executor module (tools listing inlined in `src/README.md`:
  permission store, two-phase deletion store, and the tool handlers),
* the turn controller (`AntigravityProvider.query` in
  `src/server/providers/antigravity-provider.js`),
* the remote command bridge (WebSocket request correlation in the server
  entry file).

JavaScript `Map`s are modeled as association lists, `Set`s as duplicate-free
lists, wall-clock timestamps are omitted (they never influence control flow),
and nondeterministic id generation (`Date.now()` + random suffix) is modeled
by threading an explicitly supplied fresh id.  Filesystem, shell, network and
path-normalization behavior of the host OS are parameters of the model
(records of functions), since the source delegates them to Node.
-/

namespace Nimbus

/-- Association-list lookup; models `Map.prototype.get` (keys are unique in a
JS `Map`, and all updates below preserve that). -/
def alookup {α β : Type} [DecidableEq α] (k : α) : List (α × β) → Option β
  | [] => none
  | (k₁, v) :: rest => if k = k₁ then some v else alookup k rest

/-- Association-list update; models `Map.prototype.set`: replaces the binding
of an existing key, otherwise appends. -/
def aset {α β : Type} [DecidableEq α] (k : α) (v : β) : List (α × β) → List (α × β)
  | [] => [(k, v)]
  | (k₁, v₁) :: rest => if k = k₁ then (k, v) :: rest else (k₁, v₁) :: aset k v rest

/-- Association-list removal; models `Map.prototype.delete` (removes the
binding of `k`; on the unique-key lists produced by `aset` this is the
single binding). -/
def aerase {α β : Type} [DecidableEq α] (k : α) (l : List (α × β)) : List (α × β) :=
  l.filter (fun kv => !(decide (kv.1 = k)))

/-- Occurrence of `sub` as a contiguous run inside `s` (character lists). -/
def charsHave (sub : List Char) : List Char → Bool
  | [] => sub.isEmpty
  | c :: t => sub.isPrefixOf (c :: t) || charsHave sub t

/-- JavaScript `String.prototype.includes`: substring containment. -/
def strIncludes (s sub : String) : Bool :=
  charsHave sub.toList s.toList

/-- JavaScript `String.prototype.startsWith` (character-level prefix test). -/
def strStarts (s pre : String) : Bool :=
  pre.toList.isPrefixOf s.toList

/-- JavaScript `String.prototype.toLowerCase` on the ASCII range
(kernel-reducible character-level lowering). -/
def strLower (s : String) : String :=
  String.mk (s.toList.map Char.toLower)

/-- JavaScript `Set.prototype.add` on a duplicate-free list: appends the
element unless already present. -/
def setAdd (x : String) (l : List String) : List String :=
  if l.contains x then l else l ++ [x]

theorem mem_setAdd_of_mem {x y : String} {l : List String} (h : x ∈ l) :
    x ∈ setAdd y l := by
  unfold setAdd
  split
  · exact h
  · exact List.mem_append_left _ h

theorem mem_setAdd_iff {x y : String} {l : List String} :
    x ∈ setAdd y l ↔ x ∈ l ∨ x = y := by
  unfold setAdd
  split
  · rename_i hc
    constructor
    · exact fun h => Or.inl h
    · intro h
      rcases h with h | h
      · exact h
      · subst h; exact List.mem_of_elem_eq_true (by simpa using hc)
  · simp [List.mem_append]

theorem alookup_aset_self {α β : Type} [DecidableEq α] (k : α) (v : β) (l : List (α × β)) :
    alookup k (aset k v l) = some v := by
  induction l with
  | nil => simp [aset, alookup]
  | cons hd tl ih =>
    by_cases h : k = hd.1
    · simp [aset, alookup, h]
    · simp [aset, alookup, h, ih]

theorem alookup_aset_of_ne {α β : Type} [DecidableEq α] {k k₁ : α} (v : β) (l : List (α × β))
    (h : k ≠ k₁) : alookup k (aset k₁ v l) = alookup k l := by
  induction l with
  | nil => simp [aset, alookup, h]
  | cons hd tl ih =>
    by_cases h₂ : k₁ = hd.1
    · subst h₂
      simp [aset, alookup, h]
    · by_cases h₃ : k = hd.1
      · simp [aset, alookup, h₂, h₃]
      · simp [aset, alookup, h₂, h₃, ih]

theorem alookup_aerase_self {α β : Type} [DecidableEq α] (k : α) (l : List (α × β)) :
    alookup k (aerase k l) = none := by
  induction l with
  | nil => simp [aerase, alookup]
  | cons hd tl ih =>
    by_cases h : hd.1 = k
    · simpa [aerase, h] using ih
    · have h₂ : ¬ k = hd.1 := fun hk => h hk.symm
      simpa [aerase, alookup, h, h₂] using ih

theorem alookup_aerase_of_ne {α β : Type} [DecidableEq α] {k k₁ : α} (l : List (α × β))
    (h : k ≠ k₁) : alookup k (aerase k₁ l) = alookup k l := by
  induction l with
  | nil => simp [aerase, alookup]
  | cons hd tl ih =>
    by_cases h₂ : hd.1 = k₁
    · have h₃ : ¬ k = hd.1 := fun hk => h (hk.trans h₂)
      simpa [aerase, alookup, h₂, h₃, h] using ih
    · by_cases h₃ : k = hd.1
      · simp [aerase, alookup, h₂, h₃]
      · simpa [aerase, alookup, h₂, h₃] using ih

theorem alookup_aerase_imp {α β : Type} [DecidableEq α] {k id : α} {l : List (α × β)} {v : β}
    (h : alookup id (aerase k l) = some v) : alookup id l = some v := by
  by_cases hik : id = k
  · subst hik
    rw [alookup_aerase_self] at h
    cases h
  · rwa [alookup_aerase_of_ne _ hik] at h

/-!
Capability gate: the `Sandbox` class of `src/src/server/providers/ollama.ts`.
Timestamps (`requestedAt`, audit `timestamp`) are omitted; they are recorded
by the source but never read.  `path.normalize`, `path.join` and
`path.extname` are Node functions and appear as parameters in `PathEnv`.
-/

/-- Permission record (`Permission` of `ollama.ts`), without `requestedAt`. -/
structure Permission where
  id : String
  sessionId : String
  operation : String
  path : String
  reason : String
  status : String
deriving Repr, DecidableEq

/-- Audit-log entry (`AuditEntry` of `ollama.ts`), without `timestamp`. -/
structure AuditEntry where
  sessionId : String
  operation : String
  path : String
  action : String
  reason : Option String := none
  permissionId : Option String := none
deriving Repr, DecidableEq

/-- Mirror of the `SandboxConfig` shape used by the `Sandbox` class. -/
structure SandboxConfig where
  allowedPaths : List String
  deniedPaths : List String
  requireApproval : Bool
  sensitivePaths : List String
deriving Repr, DecidableEq

/-- Default sensitive paths requiring approval (`DEFAULT_SENSITIVE_PATHS`). -/
def DEFAULT_SENSITIVE_PATHS : List String :=
  ["Downloads", "Documents", "Desktop", "Pictures", "Videos", "Music",
   "AppData", "Application Data", ".ssh", ".aws", ".config", ".gnupg",
   ".npmrc", ".netrc", "Program Files", "Program Files (x86)", "Windows",
   "System32", "/etc", "/var", "/usr", "/root", "/home"]

/-- Paths that are always blocked (`ALWAYS_BLOCKED_PATHS`). -/
def ALWAYS_BLOCKED_PATHS : List String :=
  ["System32", "Windows\\System32", "/etc/passwd", "/etc/shadow",
   "/etc/sudoers", ".ssh/id_rsa", ".ssh/id_ed25519", ".gnupg/private-keys"]

/-- Dangerous file extensions (`DANGEROUS_EXTENSIONS`). -/
def DANGEROUS_EXTENSIONS : List String :=
  [".exe", ".bat", ".cmd", ".ps1", ".vbs", ".sh", ".bash", ".zsh"]

/-- Host path functions used by the `Sandbox` class.  `norm` is the whole of
`normalizePath` (`path.normalize` + lower-casing + separator rewriting);
`join2` is `path.join` on two segments; `extnameLower` is
`path.extname(p).toLowerCase()`. -/
structure PathEnv where
  norm : String → String
  join2 : String → String → String
  extnameLower : String → String
  userHome : String

/-- Mutable fields of the `Sandbox` class. -/
structure SandboxState where
  config : SandboxConfig
  pendingPermissions : List (String × Permission)
  approvedPaths : List (String × List String)
  deniedPaths : List (String × List String)
  auditLog : List AuditEntry
deriving Repr, DecidableEq

namespace Sandbox

/-- State built by the `Sandbox` constructor (no user config file). -/
def initState : SandboxState :=
  { config := { allowedPaths := [], deniedPaths := ALWAYS_BLOCKED_PATHS,
                requireApproval := true, sensitivePaths := DEFAULT_SENSITIVE_PATHS },
    pendingPermissions := [], approvedPaths := [], deniedPaths := [], auditLog := [] }

/-- `logAudit`: push the entry and keep the last 1000. -/
def logAudit (e : AuditEntry) (st : SandboxState) : SandboxState :=
  let l := st.auditLog ++ [e]
  { st with auditLog := if l.length > 1000 then l.drop (l.length - 1000) else l }

/-- `isBlocked`: some configured blocked path occurs inside the normalized
target path (`String.includes`). -/
def isBlocked (env : PathEnv) (st : SandboxState) (targetPath : String) : Bool :=
  st.config.deniedPaths.any (fun b => strIncludes (env.norm targetPath) (env.norm b))

/-- `isSensitive`: some sensitive pattern, bare or joined under the user home
directory, occurs inside the normalized target path. -/
def isSensitive (env : PathEnv) (st : SandboxState) (targetPath : String) : Bool :=
  st.config.sensitivePaths.any (fun s =>
    strIncludes (env.norm targetPath) (env.norm s) ||
    strIncludes (env.norm targetPath) (env.norm (env.join2 env.userHome s)))

/-- `isApproved`: the normalized target path starts with some path approved
for the session. -/
def isApproved (env : PathEnv) (st : SandboxState) (sessionId targetPath : String) : Bool :=
  match alookup sessionId st.approvedPaths with
  | none => false
  | some approved => approved.any (fun a => strStarts (env.norm targetPath) a)

/-- `isDenied`: the normalized target path starts with some path denied for
the session. -/
def isDenied (env : PathEnv) (st : SandboxState) (sessionId targetPath : String) : Bool :=
  match alookup sessionId st.deniedPaths with
  | none => false
  | some denied => denied.any (fun d => strStarts (env.norm targetPath) d)

/-- `isDangerousExtension`. -/
def isDangerousExtension (env : PathEnv) (filePath : String) : Bool :=
  DANGEROUS_EXTENSIONS.contains (env.extnameLower filePath)

/-- Result shape of `validateOperation` (`ValidationResult` of `ollama.ts`). -/
structure ValidationResult where
  allowed : Bool
  reason : Option String := none
  blocked : Option Bool := none
  requiresPermission : Option Bool := none
  permission : Option Permission := none
deriving Repr, DecidableEq

/-- `requestPermission`: create a pending permission under the supplied fresh
id (the source generates `perm_<now>_<random>`). -/
def requestPermission (freshId sessionId operation path reason : String)
    (st : SandboxState) : Permission × SandboxState :=
  let perm : Permission :=
    { id := freshId, sessionId := sessionId, operation := operation,
      path := path, reason := reason, status := "pending" }
  let st := { st with pendingPermissions := aset freshId perm st.pendingPermissions }
  let st := logAudit { sessionId := sessionId, operation := operation, path := path,
                       action := "permission_requested", permissionId := some freshId } st
  (perm, st)

/-- `validateOperation`, branch for branch in source order: always-blocked,
session-denied, session-approved, sensitive (requires approval), dangerous
extension on write/execute, default allow.  `reason = none` models a missing
or falsy reason argument. -/
def validateOperation (env : PathEnv) (freshId sessionId operation targetPath : String)
    (reason : Option String) (st : SandboxState) : ValidationResult × SandboxState :=
  let st := logAudit { sessionId := sessionId, operation := operation,
                       path := targetPath, action := "attempt" } st
  if isBlocked env st targetPath then
    let st := logAudit { sessionId := sessionId, operation := operation, path := targetPath,
                         action := "blocked", reason := some "Path is in blocked list" } st
    ({ allowed := false, reason := some "This path is blocked for security reasons",
       blocked := some true }, st)
  else if isDenied env st sessionId targetPath then
    ({ allowed := false, reason := some "Access was previously denied",
       blocked := some false }, st)
  else if isApproved env st sessionId targetPath then
    let st := logAudit { sessionId := sessionId, operation := operation, path := targetPath,
                         action := "allowed", reason := some "Previously approved" } st
    ({ allowed := true }, st)
  else if st.config.requireApproval && isSensitive env st targetPath then
    let pr := requestPermission freshId sessionId operation targetPath
      ((reason).getD (operation ++ " operation on sensitive path")) st
    ({ allowed := false, requiresPermission := some true, permission := some pr.1 }, pr.2)
  else if (operation == "write" || operation == "execute") &&
      isDangerousExtension env targetPath then
    let pr := requestPermission freshId sessionId operation targetPath
      "Creating/executing file with potentially dangerous extension" st
    ({ allowed := false, requiresPermission := some true, permission := some pr.1 }, pr.2)
  else
    let st := logAudit { sessionId := sessionId, operation := operation, path := targetPath,
                         action := "allowed" } st
    ({ allowed := true }, st)

/-- Session key used by approve/deny: `permission.sessionId || 'default'`. -/
def sessOf (perm : Permission) : String :=
  if perm.sessionId = "" then "default" else perm.sessionId

/-- `approvePermission`: resolve a pending permission, add the normalized path
to the approved set for its session; `none` when the id is unknown. -/
def approvePermission (env : PathEnv) (permissionId : String) (st : SandboxState) :
    Option Permission × SandboxState :=
  match alookup permissionId st.pendingPermissions with
  | none => (none, st)
  | some perm =>
    let perm := { perm with status := "approved" }
    let st := { st with pendingPermissions := aerase permissionId st.pendingPermissions }
    let sid := sessOf perm
    let cur := (alookup sid st.approvedPaths).getD []
    let st := { st with approvedPaths := aset sid (setAdd (env.norm perm.path) cur) st.approvedPaths }
    let st := logAudit { sessionId := sid, operation := perm.operation, path := perm.path,
                         action := "approved", permissionId := some permissionId } st
    (some perm, st)

/-- `denyPermission`: resolve a pending permission, add the normalized path to
the denied set for its session; `none` when the id is unknown. -/
def denyPermission (env : PathEnv) (permissionId : String) (st : SandboxState) :
    Option Permission × SandboxState :=
  match alookup permissionId st.pendingPermissions with
  | none => (none, st)
  | some perm =>
    let perm := { perm with status := "denied" }
    let st := { st with pendingPermissions := aerase permissionId st.pendingPermissions }
    let sid := sessOf perm
    let cur := (alookup sid st.deniedPaths).getD []
    let st := { st with deniedPaths := aset sid (setAdd (env.norm perm.path) cur) st.deniedPaths }
    let st := logAudit { sessionId := sid, operation := perm.operation, path := perm.path,
                         action := "denied", permissionId := some permissionId } st
    (some perm, st)

/-- Membership of a (normalized) path in the approved set of a session. -/
def inApproved (st : SandboxState) (sessionId p : String) : Bool :=
  decide (p ∈ (alookup sessionId st.approvedPaths).getD [])

/-- Membership of a (normalized) path in the denied set of a session. -/
def inDenied (st : SandboxState) (sessionId p : String) : Bool :=
  decide (p ∈ (alookup sessionId st.deniedPaths).getD [])

end Sandbox

/-- One externally triggered gate call: a `validateOperation` (with its fresh
permission id), an `approvePermission`, or a `denyPermission`. -/
inductive GateOp
  | validate (freshId sessionId operation path : String) (reason : Option String)
  | approve (permissionId : String)
  | deny (permissionId : String)
deriving Repr, DecidableEq

/-- State effect of one gate call. -/
def gateStep (env : PathEnv) (st : SandboxState) : GateOp → SandboxState
  | .validate f sid op p r => (Sandbox.validateOperation env f sid op p r st).2
  | .approve pid => (Sandbox.approvePermission env pid st).2
  | .deny pid => (Sandbox.denyPermission env pid st).2

/-- Run a sequence of gate calls. -/
def gateRun (env : PathEnv) (st : SandboxState) : List GateOp → SandboxState
  | [] => st
  | o :: rest => gateRun env (gateStep env st o) rest

theorem logAudit_approvedPaths (e : AuditEntry) (st : SandboxState) :
    (Sandbox.logAudit e st).approvedPaths = st.approvedPaths := rfl

theorem logAudit_deniedPaths (e : AuditEntry) (st : SandboxState) :
    (Sandbox.logAudit e st).deniedPaths = st.deniedPaths := rfl

theorem requestPermission_approvedPaths (f sid op p r : String) (st : SandboxState) :
    ((Sandbox.requestPermission f sid op p r st).2).approvedPaths = st.approvedPaths := rfl

theorem requestPermission_deniedPaths (f sid op p r : String) (st : SandboxState) :
    ((Sandbox.requestPermission f sid op p r st).2).deniedPaths = st.deniedPaths := rfl

theorem validate_approvedPaths (env : PathEnv) (f sid op p : String) (r : Option String)
    (st : SandboxState) :
    ((Sandbox.validateOperation env f sid op p r st).2).approvedPaths = st.approvedPaths := by
  simp only [Sandbox.validateOperation]
  repeat' split
  all_goals rfl

theorem validate_deniedPaths (env : PathEnv) (f sid op p : String) (r : Option String)
    (st : SandboxState) :
    ((Sandbox.validateOperation env f sid op p r st).2).deniedPaths = st.deniedPaths := by
  simp only [Sandbox.validateOperation]
  repeat' split
  all_goals rfl

theorem approve_deniedPaths (env : PathEnv) (pid : String) (st : SandboxState) :
    ((Sandbox.approvePermission env pid st).2).deniedPaths = st.deniedPaths := by
  simp only [Sandbox.approvePermission]
  split
  all_goals rfl

theorem deny_approvedPaths (env : PathEnv) (pid : String) (st : SandboxState) :
    ((Sandbox.denyPermission env pid st).2).approvedPaths = st.approvedPaths := by
  simp only [Sandbox.denyPermission]
  split
  all_goals rfl

theorem approve_approvedPaths_of_some (env : PathEnv) (pid : String) (st : SandboxState)
    {perm : Permission} (h : alookup pid st.pendingPermissions = some perm) :
    ((Sandbox.approvePermission env pid st).2).approvedPaths =
      aset (Sandbox.sessOf perm)
        (setAdd (env.norm perm.path) ((alookup (Sandbox.sessOf perm) st.approvedPaths).getD []))
        st.approvedPaths := by
  simp only [Sandbox.approvePermission, h]
  rfl

theorem deny_deniedPaths_of_some (env : PathEnv) (pid : String) (st : SandboxState)
    {perm : Permission} (h : alookup pid st.pendingPermissions = some perm) :
    ((Sandbox.denyPermission env pid st).2).deniedPaths =
      aset (Sandbox.sessOf perm)
        (setAdd (env.norm perm.path) ((alookup (Sandbox.sessOf perm) st.deniedPaths).getD []))
        st.deniedPaths := by
  simp only [Sandbox.denyPermission, h]
  rfl

/-- A gate call is resolution-consistent in a state when, if it resolves a
pending permission, the normalized path of that permission is not already in
the opposite set of its session.  This is the side condition under which the
approved/denied sets stay disjoint (see `approved_denied_overlap_reachable`
for why it cannot be dropped). -/
def gateOpSafe (env : PathEnv) (st : SandboxState) : GateOp → Bool
  | .validate _ _ _ _ _ => true
  | .approve pid =>
    match alookup pid st.pendingPermissions with
    | none => true
    | some perm => !(Sandbox.inDenied st (Sandbox.sessOf perm) (env.norm perm.path))
  | .deny pid =>
    match alookup pid st.pendingPermissions with
    | none => true
    | some perm => !(Sandbox.inApproved st (Sandbox.sessOf perm) (env.norm perm.path))

/-- Every call of the trace is resolution-consistent in the state it runs in. -/
def gateTraceSafe (env : PathEnv) (st : SandboxState) : List GateOp → Bool
  | [] => true
  | o :: rest => gateOpSafe env st o && gateTraceSafe env (gateStep env st o) rest

/-- No path is in both the approved and the denied set of a session. -/
def gateDisjoint (st : SandboxState) : Prop :=
  ∀ sid p, Sandbox.inApproved st sid p = true → Sandbox.inDenied st sid p = false

theorem mem_approved_after_aset {st : SandboxState} {sid sid₁ p np : String}
    {cur : List String}
    (hcur : cur = (alookup sid₁ st.approvedPaths).getD [])
    (h : decide (p ∈ (alookup sid (aset sid₁ (setAdd np cur) st.approvedPaths)).getD []) = true) :
    Sandbox.inApproved st sid p = true ∨ (sid = sid₁ ∧ p = np) := by
  by_cases hs : sid = sid₁
  · subst hs
    rw [alookup_aset_self] at h
    simp only [Option.getD_some] at h
    have hmem : p ∈ setAdd np cur := of_decide_eq_true h
    rcases mem_setAdd_iff.mp hmem with hin | hp
    · left
      unfold Sandbox.inApproved
      rw [← hcur]
      exact decide_eq_true hin
    · right; exact ⟨rfl, hp⟩
  · left
    unfold Sandbox.inApproved
    rw [alookup_aset_of_ne _ _ hs] at h
    exact h

theorem mem_denied_after_aset {st : SandboxState} {sid sid₁ p np : String}
    {cur : List String}
    (hcur : cur = (alookup sid₁ st.deniedPaths).getD [])
    (h : decide (p ∈ (alookup sid (aset sid₁ (setAdd np cur) st.deniedPaths)).getD []) = true) :
    Sandbox.inDenied st sid p = true ∨ (sid = sid₁ ∧ p = np) := by
  by_cases hs : sid = sid₁
  · subst hs
    rw [alookup_aset_self] at h
    simp only [Option.getD_some] at h
    have hmem : p ∈ setAdd np cur := of_decide_eq_true h
    rcases mem_setAdd_iff.mp hmem with hin | hp
    · left
      unfold Sandbox.inDenied
      rw [← hcur]
      exact decide_eq_true hin
    · right; exact ⟨rfl, hp⟩
  · left
    unfold Sandbox.inDenied
    rw [alookup_aset_of_ne _ _ hs] at h
    exact h

theorem gateStep_disjoint {env : PathEnv} {st : SandboxState} {o : GateOp}
    (hd : gateDisjoint st) (hs : gateOpSafe env st o = true) :
    gateDisjoint (gateStep env st o) := by
  intro sid p
  cases o with
  | validate f sid₁ op₁ p₁ r =>
    intro ha
    unfold Sandbox.inApproved at ha
    unfold Sandbox.inDenied
    rw [gateStep, validate_deniedPaths]
    rw [gateStep, validate_approvedPaths] at ha
    exact hd sid p ha
  | approve pid =>
    intro ha
    cases hl : alookup pid st.pendingPermissions with
    | none =>
      unfold Sandbox.inApproved at ha
      unfold Sandbox.inDenied
      simp only [gateStep, Sandbox.approvePermission, hl] at ha ⊢
      exact hd sid p ha
    | some perm =>
      unfold Sandbox.inApproved at ha
      unfold Sandbox.inDenied
      rw [gateStep, approve_deniedPaths]
      rw [gateStep, approve_approvedPaths_of_some env pid st hl] at ha
      rcases mem_approved_after_aset rfl ha with hold | ⟨hsid, hp⟩
      · exact hd sid p hold
      · subst hsid; subst hp
        have := hs
        simp only [gateOpSafe, hl, Bool.not_eq_true'] at this
        exact this
  | deny pid =>
    intro ha
    cases hl : alookup pid st.pendingPermissions with
    | none =>
      unfold Sandbox.inApproved at ha
      unfold Sandbox.inDenied
      simp only [gateStep, Sandbox.denyPermission, hl] at ha ⊢
      exact hd sid p ha
    | some perm =>
      have ha₁ : Sandbox.inApproved st sid p = true := by
        unfold Sandbox.inApproved at ha ⊢
        rw [gateStep, deny_approvedPaths] at ha
        exact ha
      unfold Sandbox.inDenied
      rw [gateStep, deny_deniedPaths_of_some env pid st hl]
      by_cases hfinal :
          decide (p ∈ (alookup sid (aset (Sandbox.sessOf perm)
            (setAdd (env.norm perm.path)
              ((alookup (Sandbox.sessOf perm) st.deniedPaths).getD []))
            st.deniedPaths)).getD []) = true
      · exfalso
        rcases mem_denied_after_aset rfl hfinal with hold | ⟨hsid, hp⟩
        · exact absurd hold (by simp [hd sid p ha₁])
        · subst hsid; subst hp
          have := hs
          simp only [gateOpSafe, hl, Bool.not_eq_true'] at this
          exact absurd ha₁ (by simp [this])
      · exact eq_false_of_ne_true hfinal

theorem gateRun_disjoint {env : PathEnv} {st : SandboxState} {ops : List GateOp}
    (hd : gateDisjoint st) (hs : gateTraceSafe env st ops = true) :
    gateDisjoint (gateRun env st ops) := by
  induction ops generalizing st with
  | nil => exact hd
  | cons o rest ih =>
    simp only [gateTraceSafe, Bool.and_eq_true] at hs
    exact ih (gateStep_disjoint hd hs.1) hs.2

theorem initState_disjoint : gateDisjoint Sandbox.initState := by
  intro sid p h
  simp [Sandbox.inApproved, Sandbox.initState, alookup] at h

/-- Concrete path environment for evaluating the model on examples: the
identity normalizer with `/`-joining and no recognized extension. -/
def pathEnvDemo : PathEnv :=
  { norm := fun s => s, join2 := fun a b => a ++ "/" ++ b,
    extnameLower := fun _ => "", userHome := "/home/u" }

/-- Two validations of the same sensitive path create two pending
permissions; approving one and denying the other puts the path in both sets. -/
def overlapOps : List GateOp :=
  [.validate "perm1" "s1" "read" "/home/u/Documents/x.txt" none,
   .validate "perm2" "s1" "read" "/home/u/Documents/x.txt" none,
   .approve "perm1",
   .deny "perm2"]

/-- C5 counterexample: the claim that no normalized path is ever in both the
approved-path set and the denied-path set of one session is false on the
code.  Two `validateOperation` calls on the same sensitive path each create a
pending permission; `approvePermission` on the first and `denyPermission` on
the second leave the path in both sets, because neither resolution removes
the path from the opposite set. -/
theorem approved_denied_overlap_reachable :
    Sandbox.inApproved (gateRun pathEnvDemo Sandbox.initState overlapOps)
        "s1" "/home/u/Documents/x.txt" = true ∧
      Sandbox.inDenied (gateRun pathEnvDemo Sandbox.initState overlapOps)
        "s1" "/home/u/Documents/x.txt" = true := by
  constructor
  · rfl
  · rfl

/-- C5 (amended): along any sequence of `validateOperation`, `approvePermission`
and `denyPermission` calls in which no resolution approves a path already
denied for its session or denies a path already approved for it, no
normalized path is ever in both the approved-path set and the denied-path set
of the same session.  (The unrestricted claim fails: see
`approved_denied_overlap_reachable`, where two pending permissions for the
same path are resolved in opposite ways.) -/
theorem gate_sets_disjoint_of_safe_trace (env : PathEnv) (ops : List GateOp)
    (hs : gateTraceSafe env Sandbox.initState ops = true) (sid p : String)
    (ha : Sandbox.inApproved (gateRun env Sandbox.initState ops) sid p = true) :
    Sandbox.inDenied (gateRun env Sandbox.initState ops) sid p = false :=
  gateRun_disjoint initState_disjoint hs sid p ha

/-- Resolution-consistent demonstration trace: the approval scenario of the
design document (approve a sensitive path for one session only). -/
def safeOps : List GateOp :=
  [.validate "permA" "s1" "write" "/home/u/Documents/x.txt" none,
   .approve "permA",
   .validate "permB" "s2" "write" "/home/u/Documents/x.txt" none]

theorem gate_sets_disjoint_of_safe_trace_witness :
    gateTraceSafe pathEnvDemo Sandbox.initState safeOps = true ∧
      Sandbox.inApproved (gateRun pathEnvDemo Sandbox.initState safeOps)
        "s1" "/home/u/Documents/x.txt" = true ∧
      Sandbox.inDenied (gateRun pathEnvDemo Sandbox.initState safeOps)
        "s1" "/home/u/Documents/x.txt" = false :=
  ⟨by rfl, by rfl,
   gate_sets_disjoint_of_safe_trace pathEnvDemo safeOps (by rfl)
     "s1" "/home/u/Documents/x.txt" (by rfl)⟩

theorem isDenied_of_inDenied {env : PathEnv} {st : SandboxState} {sid d q : String}
    (hd : Sandbox.inDenied st sid d = true)
    (hq : strStarts (env.norm q) d = true) :
    Sandbox.isDenied env st sid q = true := by
  unfold Sandbox.inDenied at hd
  unfold Sandbox.isDenied
  cases hl : alookup sid st.deniedPaths with
  | none => rw [hl] at hd; simp at hd
  | some l =>
    rw [hl] at hd
    simp only [Option.getD_some, decide_eq_true_eq] at hd
    simp only [List.any_eq_true]
    exact ⟨d, hd, hq⟩

theorem gateStep_inDenied_mono {env : PathEnv} {st : SandboxState} {sid d : String}
    (o : GateOp) (hd : Sandbox.inDenied st sid d = true) :
    Sandbox.inDenied (gateStep env st o) sid d = true := by
  cases o with
  | validate f sid₁ op₁ p₁ r =>
    unfold Sandbox.inDenied at hd ⊢
    rw [gateStep, validate_deniedPaths]
    exact hd
  | approve pid =>
    unfold Sandbox.inDenied at hd ⊢
    rw [gateStep, approve_deniedPaths]
    exact hd
  | deny pid =>
    cases hl : alookup pid st.pendingPermissions with
    | none =>
      unfold Sandbox.inDenied at hd ⊢
      simp only [gateStep, Sandbox.denyPermission, hl]
      exact hd
    | some perm =>
      unfold Sandbox.inDenied at hd ⊢
      rw [gateStep, deny_deniedPaths_of_some env pid st hl]
      by_cases hs : sid = Sandbox.sessOf perm
      · subst hs
        rw [alookup_aset_self]
        simp only [Option.getD_some, decide_eq_true_eq] at hd ⊢
        exact mem_setAdd_of_mem hd
      · rw [alookup_aset_of_ne _ _ hs]
        exact hd

theorem gateRun_inDenied_mono {env : PathEnv} {st : SandboxState} {sid d : String}
    (ops : List GateOp) (hd : Sandbox.inDenied st sid d = true) :
    Sandbox.inDenied (gateRun env st ops) sid d = true := by
  induction ops generalizing st with
  | nil => exact hd
  | cons o rest ih => exact ih (gateStep_inDenied_mono o hd)

/-- C6: once a path is in the denied set of a session, it stays there under
any further `validateOperation`, `approvePermission` and `denyPermission`
calls, and `validateOperation` never returns an allowed result for it or for
any path whose normalized form extends it textually: the denied check runs
before the approved check, so later approvals of other paths cannot shadow
it. -/
theorem denied_prefix_never_allowed (env : PathEnv) (st : SandboxState)
    (sid d q f op : String) (r : Option String) (ops : List GateOp)
    (hd : Sandbox.inDenied st sid d = true)
    (hq : strStarts (env.norm q) d = true) :
    Sandbox.inDenied (gateRun env st ops) sid d = true ∧
      ((Sandbox.validateOperation env f sid op q r (gateRun env st ops)).1).allowed = false := by
  have hmono : Sandbox.inDenied (gateRun env st ops) sid d = true :=
    gateRun_inDenied_mono ops hd
  refine ⟨hmono, ?_⟩
  have hden : ∀ st₁ : SandboxState, Sandbox.inDenied st₁ sid d = true →
      ∀ e : AuditEntry, Sandbox.isDenied env (Sandbox.logAudit e st₁) sid q = true := by
    intro st₁ h₁ e
    have : Sandbox.inDenied (Sandbox.logAudit e st₁) sid d = true := h₁
    exact isDenied_of_inDenied this hq
  simp only [Sandbox.validateOperation]
  split
  · rfl
  · split
    · rfl
    · rename_i hnb hnd
      exact absurd (hden (gateRun env st ops) hmono _) hnd

/-- State for the C6 witness: session `s1` has already had
`/home/u/documents` denied. -/
def deniedStDemo : SandboxState :=
  { Sandbox.initState with deniedPaths := [("s1", ["/home/u/documents"])] }

/-- Unrelated later activity for the C6 witness: another sensitive path is
requested and approved for the same session. -/
def unrelatedApproveOps : List GateOp :=
  [.validate "perm9" "s1" "write" "/home/u/Downloads/z.txt" none,
   .approve "perm9"]

/-!
Tool executor module (the `Tool Executor Module` source inlined in
`src/README.md`): session-keyed stores (`todoStorage`, `pendingDeletions`,
`pendingPermissions`, `approvedPaths`, `progressTracker`, `currentSessionId`,
`browserExtension`), the permission helpers, and the tool handlers dispatched
by `executeTool`.

The filesystem is a finite map from paths to entries; every Node `fs`, shell,
glob or network call a handler makes is additionally recorded in an operation
trace (`FsOp`), so that which primitives a handler touches is itself a
checkable artifact.  `Date.now()`-based id generation is an explicit fresh-id
argument; payload details that no claim depends on (line numbering of read
output, regex details of Grep, HTML scraping of the web tools, the literal
PowerShell script texts) are summarized, while every permission check,
existence check, store update and filesystem operation is kept branch for
branch.
-/

namespace Tools

/-- A filesystem entry: a regular file with its contents, or a directory. -/
inductive FsEntry
  | file (content : String)
  | dir
deriving Repr, DecidableEq

/-- Finite filesystem: paths bound to entries. -/
abbrev FS := List (String × FsEntry)

/-- Primitive outside-world operations a tool handler can perform. -/
inductive FsOp
  | readFileOp (p : String)
  | writeFileOp (p : String)
  | mkdirOp (p : String)
  | renameOp (src dst : String)
  | copyFileOp (src dst : String)
  | cpRecOp (src dst : String)
  | rmOp (p : String) (recursive : Bool)
  | unlinkOp (p : String)
  | readdirOp (p : String)
  | statOp (p : String)
  | globOp (pat cwd : String)
  | execOp (cmd : String)
  | netGetOp (url : String)
  | bridgeOp (action : String)
deriving Repr, DecidableEq

/-- Operations that can remove a filesystem entry: the deletion primitives
`fs.rm` and `fs.unlink`, and handing an arbitrary command line to the system
shell. -/
def opDeletes : FsOp → Bool
  | .rmOp _ _ => true
  | .unlinkOp _ => true
  | .execOp _ => true
  | _ => false

/-- A trace free of deletion-capable operations. -/
def traceClean (t : List FsOp) : Bool :=
  t.all (fun o => !(opDeletes o))

/-- Result of a shell invocation (`execAsync`): resulting filesystem, success
flag, and captured output. -/
structure ShellOut where
  fs : FS
  ok : Bool
  stdout : String
  stderr : String

/-- Host behavior the tool module delegates to Node and the OS. -/
structure OsEnv where
  pnorm : String → String
  join2 : String → String → String
  dirname : String → String
  userHome : String
  cwd : String
  stamp : String
  platformWin : Bool
  nircmd : Bool
  shell : String → FS → ShellOut
  globSem : String → String → FS → List String
  fetch : String → Option String

/-- Pending deletion entry (`pendingDeletions` values); `createdAt` omitted. -/
structure PendingDeletion where
  path : String
  recursive : Bool
  reason : String
  isDirectory : Bool
  size : Nat
  fileCount : Nat
  session : String
deriving Repr, DecidableEq

/-- Pending permission entry (`pendingPermissions` values); `requestedAt`
omitted. -/
structure PendingPerm where
  path : String
  operation : String
  reason : String
  sessionId : String
deriving Repr, DecidableEq

/-- Todo item as stored by `TodoWrite`. -/
structure Todo where
  content : String
  status : String
deriving Repr, DecidableEq

/-- Progress entry as stored by `executeProgress`; timestamp omitted. -/
structure ProgressEntry where
  step : String
  details : String
  percent : Option Nat
deriving Repr, DecidableEq

/-- Module-level mutable state of the tool executor.  `browserConnected`
models whether `setBrowserExtension` installed a connected extension. -/
structure ToolsState where
  todoStorage : List (String × List Todo)
  pendingDeletions : List (String × PendingDeletion)
  pendingPermissions : List (String × PendingPerm)
  approvedPaths : List (String × List String)
  progressTracker : List (String × List ProgressEntry)
  currentSessionId : String
  browserConnected : Bool
deriving Repr, DecidableEq

/-- Sensitive paths of the tool module (`SENSITIVE_PATHS` in the README
listing; distinct from the sandbox list in `ollama.ts`). -/
def SENSITIVE_PATHS : List String :=
  ["Downloads", "Documents", "Desktop", "Pictures", "Videos", "Music",
   "AppData", "Application Data", ".ssh", ".aws", ".config",
   "Program Files", "Windows", "System32"]

/-- Tool input object; one loosely typed record covers every handler, with JS
`undefined` defaults baked in (`Option` where the handler applies a default
itself). -/
structure ToolInput where
  file_path : String := ""
  content : String := ""
  old_string : String := ""
  new_string : String := ""
  replace_all : Bool := false
  path : String := ""
  pattern : String := ""
  includePat : String := ""
  source : String := ""
  destination : String := ""
  recursive : Bool := false
  reason : Option String := none
  deletion_id : String := ""
  permission_id : String := ""
  command : String := ""
  url : String := ""
  todos : List Todo := []
  step : String := ""
  details : String := ""
  percent : Option Nat := none
  query : String := ""
  text : String := ""
  keys : String := ""
deriving Repr, DecidableEq

/-- Structured tool results: the discriminants of the plain objects the
handlers return (`{error}`, `{requires_permission, permission_id, ...}`,
`{requires_approval, deletion_id, ...}`, success shapes). -/
inductive ToolResult
  | err (message : String)
  | requiresPermission (permissionId path operation : String)
  | requiresApproval (deletionId path : String) (fileCount : Nat)
  | okRead (content : String)
  | okWrite (path : String)
  | okEdit (path : String)
  | okList (items : List String)
  | okDeleted (path : String)
  | okCancelled (path : String)
  | okApproved (path : String)
  | okDenied (path : String)
  | okBash (success : Bool) (stdout stderr : String)
  | okUnit (message : String)
deriving Repr, DecidableEq

/-- Output of one handler invocation: its result, the module state, the
filesystem, and the trace of primitive operations performed. -/
structure ToolOut where
  result : ToolResult
  st : ToolsState
  fs : FS
  trace : List FsOp
deriving Repr, DecidableEq

/-- `isSensitivePath`: the lower-cased normalized path contains a sensitive
pattern, bare or joined under the user home directory. -/
def isSensitivePath (env : OsEnv) (targetPath : String) : Bool :=
  SENSITIVE_PATHS.any (fun s =>
    strIncludes (strLower (env.pnorm targetPath)) (strLower s) ||
    strIncludes (strLower (env.pnorm targetPath)) (strLower (env.join2 env.userHome s)))

/-- `isPathApproved`: the lower-cased normalized path starts with some
approved path of the session (approved paths are stored normalized but not
lower-cased; the comparison lower-cases them). -/
def isPathApproved (env : OsEnv) (st : ToolsState) (sessionId targetPath : String) : Bool :=
  match alookup sessionId st.approvedPaths with
  | none => false
  | some approved =>
    approved.any (fun a => strStarts (strLower (env.pnorm targetPath)) (strLower a))

/-- `requestPathPermission`: register a pending permission under the supplied
fresh id and return the structured `requires_permission` result. -/
def requestPathPermission (fresh targetPath operation reason : String)
    (st : ToolsState) : ToolResult × ToolsState :=
  let perm : PendingPerm :=
    { path := targetPath, operation := operation, reason := reason,
      sessionId := st.currentSessionId }
  (.requiresPermission fresh targetPath operation,
   { st with pendingPermissions := aset fresh perm st.pendingPermissions })

/-- `confirmPermission`: resolve a pending permission, adding its normalized
path to the approved set of its session. -/
def confirmPermission (env : OsEnv) (permissionId : String) (st : ToolsState) :
    ToolResult × ToolsState :=
  match alookup permissionId st.pendingPermissions with
  | none => (.err "Permission request not found or expired", st)
  | some perm =>
    let cur := (alookup perm.sessionId st.approvedPaths).getD []
    (.okApproved perm.path,
     { st with approvedPaths := aset perm.sessionId (setAdd (env.pnorm perm.path) cur) st.approvedPaths,
               pendingPermissions := aerase permissionId st.pendingPermissions })

/-- `denyPermission` of the tool module: deletes the pending entry and
records nothing else. -/
def denyPermission (permissionId : String) (st : ToolsState) :
    ToolResult × ToolsState :=
  match alookup permissionId st.pendingPermissions with
  | none => (.err "Permission request not found", st)
  | some perm =>
    (.okDenied perm.path,
     { st with pendingPermissions := aerase permissionId st.pendingPermissions })

/-- Delete a single path binding (`fs.unlink` effect on the map). -/
def fsErase (p : String) (fs : FS) : FS := aerase p fs

/-- Delete a path and everything below it (`fs.rm` recursive effect). -/
def fsEraseTree (p : String) (fs : FS) : FS :=
  (fsErase p fs).filter (fun kv => !(strStarts kv.1 (p ++ "/")))

/-- Effect of `fs.rm(path, { recursive })`: fails on a missing path and on a
directory without the recursive flag. -/
def rmRes (p : String) (recursive : Bool) (fs : FS) : Option FS :=
  match alookup p fs with
  | none => none
  | some (.file _) => some (fsErase p fs)
  | some .dir => if recursive then some (fsEraseTree p fs) else none

/-- Effect of `fs.unlink(path)`: fails on a missing path or a directory. -/
def unlinkRes (p : String) (fs : FS) : Option FS :=
  match alookup p fs with
  | some (.file _) => some (fsErase p fs)
  | _ => none

/-- Move a path and its subtree (`fs.rename`). -/
def fsRenameTree (src dst : String) (fs : FS) : FS :=
  fs.map (fun kv =>
    if kv.1 = src then (dst, kv.2)
    else if strStarts kv.1 (src ++ "/") then (dst ++ kv.1.drop src.length, kv.2)
    else kv)

/-- Copy a path and its subtree (`fs.cp { recursive: true }` /
`fs.copyFile`). -/
def fsCopyTree (src dst : String) (fs : FS) : FS :=
  let copies := fs.filterMap (fun kv =>
    if kv.1 = src then some (dst, kv.2)
    else if strStarts kv.1 (src ++ "/") then some (dst ++ kv.1.drop src.length, kv.2)
    else none)
  copies.foldl (fun acc kv => aset kv.1 kv.2 acc) fs

/-- JS `String.replace` with a string pattern: first occurrence only. -/
def replaceFirstStr (c old repl : String) : String :=
  match c.splitOn old with
  | [] => c
  | [x] => x
  | x :: rest => x ++ repl ++ String.intercalate old rest

/-- JS `split(old).join(repl)`: every occurrence. -/
def replaceAllStr (c old repl : String) : String :=
  String.intercalate repl (c.splitOn old)

/-- `executeRead` (README listing): permission gate, then `fs.readFile`.
Offset and limit slicing and line numbering of the payload are not modeled. -/
def executeRead (env : OsEnv) (fresh : String) (input : ToolInput)
    (st : ToolsState) (fs : FS) : ToolOut :=
  if isSensitivePath env input.file_path &&
      !(isPathApproved env st st.currentSessionId input.file_path) then
    let rs := requestPathPermission fresh input.file_path "read"
      "Reading files from this location" st
    { result := rs.1, st := rs.2, fs := fs, trace := [] }
  else
    match alookup input.file_path fs with
    | some (.file c) =>
      { result := .okRead c, st := st, fs := fs, trace := [.readFileOp input.file_path] }
    | _ =>
      { result := .err ("ENOENT: no such file " ++ input.file_path), st := st, fs := fs,
        trace := [.readFileOp input.file_path] }

/-- `executeWrite`: permission gate, then `fs.mkdir(dirname)` and
`fs.writeFile`. -/
def executeWrite (env : OsEnv) (fresh : String) (input : ToolInput)
    (st : ToolsState) (fs : FS) : ToolOut :=
  if isSensitivePath env input.file_path &&
      !(isPathApproved env st st.currentSessionId input.file_path) then
    let rs := requestPathPermission fresh input.file_path "write"
      "Writing files to this location" st
    { result := rs.1, st := rs.2, fs := fs, trace := [] }
  else
    let fs := aset (env.dirname input.file_path) FsEntry.dir fs
    let fs := aset input.file_path (FsEntry.file input.content) fs
    { result := .okWrite input.file_path, st := st, fs := fs,
      trace := [.mkdirOp (env.dirname input.file_path), .writeFileOp input.file_path] }

/-- `executeEdit`: permission gate, `fs.readFile`, substring presence check,
first-or-all replacement, `fs.writeFile`. -/
def executeEdit (env : OsEnv) (fresh : String) (input : ToolInput)
    (st : ToolsState) (fs : FS) : ToolOut :=
  if isSensitivePath env input.file_path &&
      !(isPathApproved env st st.currentSessionId input.file_path) then
    let rs := requestPathPermission fresh input.file_path "edit"
      "Editing files in this location" st
    { result := rs.1, st := rs.2, fs := fs, trace := [] }
  else
    match alookup input.file_path fs with
    | some (.file c) =>
      if !(strIncludes c input.old_string) then
        { result := .err ("String not found: " ++ input.old_string), st := st, fs := fs,
          trace := [.readFileOp input.file_path] }
      else
        let c₁ := if input.replace_all then replaceAllStr c input.old_string input.new_string
                  else replaceFirstStr c input.old_string input.new_string
        { result := .okEdit input.file_path,
          st := st, fs := aset input.file_path (FsEntry.file c₁) fs,
          trace := [.readFileOp input.file_path, .writeFileOp input.file_path] }
    | _ =>
      { result := .err ("ENOENT: no such file " ++ input.file_path), st := st, fs := fs,
        trace := [.readFileOp input.file_path] }

/-- `executeGlob`: no permission gate; one glob call. -/
def executeGlob (env : OsEnv) (input : ToolInput) (st : ToolsState) (fs : FS) : ToolOut :=
  let searchPath := if input.path = "" then env.cwd else input.path
  let found := env.globSem input.pattern searchPath fs
  { result := .okList (found.take 200), st := st, fs := fs,
    trace := [.globOp input.pattern searchPath] }

/-- `executeGrep`: no permission gate; glob (or stat) to choose files, then
read each of the first 50.  The per-line regex matching only shapes the
payload and is summarized by returning the file list. -/
def executeGrep (env : OsEnv) (input : ToolInput) (st : ToolsState) (fs : FS) : ToolOut :=
  let searchPath := if input.path = "" then env.cwd else input.path
  if input.includePat ≠ "" then
    let files := env.globSem input.includePat searchPath fs
    { result := .okList (files.take 50), st := st, fs := fs,
      trace := .globOp input.includePat searchPath ::
        (files.take 50).map FsOp.readFileOp }
  else
    match alookup searchPath fs with
    | some (.file _) =>
      { result := .okList [searchPath], st := st, fs := fs,
        trace := [.statOp searchPath, .readFileOp searchPath] }
    | _ =>
      let files := env.globSem "**/*" searchPath fs
      { result := .okList (files.take 50), st := st, fs := fs,
        trace := .statOp searchPath :: .globOp "**/*" searchPath ::
          (files.take 50).map FsOp.readFileOp }

/-- Direct children of a directory (`fs.readdir`). -/
def directChildren (p : String) (fs : FS) : List String :=
  (fs.filter (fun kv =>
    strStarts kv.1 (p ++ "/") && !((kv.1.drop (p.length + 1)).contains '/')))
    |>.map (fun kv => kv.1)

/-- `executeListDir`: permission gate, then `fs.readdir` (per-entry stat
calls only shape sizes in the payload and are not traced individually). -/
def executeListDir (env : OsEnv) (fresh : String) (input : ToolInput)
    (st : ToolsState) (fs : FS) : ToolOut :=
  if isSensitivePath env input.path &&
      !(isPathApproved env st st.currentSessionId input.path) then
    let rs := requestPathPermission fresh input.path "list"
      "Listing files in this location" st
    { result := rs.1, st := rs.2, fs := fs, trace := [] }
  else
    match alookup input.path fs with
    | some .dir =>
      { result := .okList (directChildren input.path fs), st := st, fs := fs,
        trace := [.readdirOp input.path] }
    | _ =>
      { result := .err ("ENOTDIR: not a directory " ++ input.path), st := st, fs := fs,
        trace := [.readdirOp input.path] }

/-- `executeMakeDir`: permission gate, then `fs.mkdir { recursive: true }`. -/
def executeMakeDir (env : OsEnv) (fresh : String) (input : ToolInput)
    (st : ToolsState) (fs : FS) : ToolOut :=
  if isSensitivePath env input.path &&
      !(isPathApproved env st st.currentSessionId input.path) then
    let rs := requestPathPermission fresh input.path "create directory"
      "Creating directory in this location" st
    { result := rs.1, st := rs.2, fs := fs, trace := [] }
  else
    { result := .okUnit input.path, st := st, fs := aset input.path FsEntry.dir fs,
      trace := [.mkdirOp input.path] }

/-- `executeMove`: permission gates on source and destination, then
`fs.rename`. -/
def executeMove (env : OsEnv) (fresh : String) (input : ToolInput)
    (st : ToolsState) (fs : FS) : ToolOut :=
  if isSensitivePath env input.source &&
      !(isPathApproved env st st.currentSessionId input.source) then
    let rs := requestPathPermission fresh input.source "move from"
      "Moving files from this location" st
    { result := rs.1, st := rs.2, fs := fs, trace := [] }
  else if isSensitivePath env input.destination &&
      !(isPathApproved env st st.currentSessionId input.destination) then
    let rs := requestPathPermission fresh input.destination "move to"
      "Moving files to this location" st
    { result := rs.1, st := rs.2, fs := fs, trace := [] }
  else
    match alookup input.source fs with
    | none =>
      { result := .err ("ENOENT: no such file " ++ input.source), st := st, fs := fs,
        trace := [.renameOp input.source input.destination] }
    | some _ =>
      { result := .okUnit input.destination, st := st,
        fs := fsRenameTree input.source input.destination fs,
        trace := [.renameOp input.source input.destination] }

/-- `executeCopy`: permission gates on source and destination, `fs.stat`,
then `fs.cp` (directory) or `fs.mkdir` + `fs.copyFile` (file). -/
def executeCopy (env : OsEnv) (fresh : String) (input : ToolInput)
    (st : ToolsState) (fs : FS) : ToolOut :=
  if isSensitivePath env input.source &&
      !(isPathApproved env st st.currentSessionId input.source) then
    let rs := requestPathPermission fresh input.source "copy from"
      "Copying files from this location" st
    { result := rs.1, st := rs.2, fs := fs, trace := [] }
  else if isSensitivePath env input.destination &&
      !(isPathApproved env st st.currentSessionId input.destination) then
    let rs := requestPathPermission fresh input.destination "copy to"
      "Copying files to this location" st
    { result := rs.1, st := rs.2, fs := fs, trace := [] }
  else
    match alookup input.source fs with
    | none =>
      { result := .err ("ENOENT: no such file " ++ input.source), st := st, fs := fs,
        trace := [.statOp input.source] }
    | some .dir =>
      { result := .okUnit input.destination, st := st,
        fs := fsCopyTree input.source input.destination fs,
        trace := [.statOp input.source, .cpRecOp input.source input.destination] }
    | some (.file c) =>
      { result := .okUnit input.destination, st := st,
        fs := aset input.destination (FsEntry.file c)
          (aset (env.dirname input.destination) FsEntry.dir fs),
        trace := [.statOp input.source, .mkdirOp (env.dirname input.destination),
          .copyFileOp input.source input.destination] }

/-- `executeDelete` (the `Delete` tool): stat the path (error when missing,
with no entry created), snapshot type/size/file count, and register a pending
deletion under the supplied fresh id.  No filesystem mutation happens here.
Directory byte size is approximate in the source (`stat.size`) and is modeled
as 0. -/
def executeDelete (env : OsEnv) (fresh : String) (input : ToolInput)
    (st : ToolsState) (fs : FS) : ToolOut :=
  match alookup input.path fs with
  | none =>
    { result := .err ("Path not found: " ++ input.path), st := st, fs := fs,
      trace := [.statOp input.path] }
  | some entry =>
    let isDir := entry = FsEntry.dir
    let fileCount := if isDir then (env.globSem "**/*" input.path fs).length else 1
    let size := match entry with | .file c => c.length | .dir => 0
    let pd : PendingDeletion :=
      { path := input.path, recursive := input.recursive,
        reason := input.reason.getD "No reason provided", isDirectory := isDir,
        size := size, fileCount := fileCount, session := st.currentSessionId }
    { result := .requiresApproval fresh input.path fileCount,
      st := { st with pendingDeletions := aset fresh pd st.pendingDeletions },
      fs := fs,
      trace := .statOp input.path ::
        (if isDir then [.globOp "**/*" input.path] else []) }

/-- `executeConfirmDelete` (the `ConfirmDelete` tool): look up the pending
entry (error when unknown), run `fs.rm` (directory) or `fs.unlink` (file) on
the recorded path, and remove the entry only on success so a failed deletion
can be retried. -/
def executeConfirmDelete (input : ToolInput) (st : ToolsState) (fs : FS) : ToolOut :=
  match alookup input.deletion_id st.pendingDeletions with
  | none =>
    { result := .err ("No pending deletion found with id: " ++ input.deletion_id ++
        ". It may have expired or already been processed."),
      st := st, fs := fs, trace := [] }
  | some pd =>
    if pd.isDirectory then
      match rmRes pd.path pd.recursive fs with
      | some fs₁ =>
        { result := .okDeleted pd.path,
          st := { st with pendingDeletions := aerase input.deletion_id st.pendingDeletions },
          fs := fs₁, trace := [.rmOp pd.path pd.recursive] }
      | none =>
        { result := .err ("Failed to delete: " ++ pd.path), st := st, fs := fs,
          trace := [.rmOp pd.path pd.recursive] }
    else
      match unlinkRes pd.path fs with
      | some fs₁ =>
        { result := .okDeleted pd.path,
          st := { st with pendingDeletions := aerase input.deletion_id st.pendingDeletions },
          fs := fs₁, trace := [.unlinkOp pd.path] }
      | none =>
        { result := .err ("Failed to delete: " ++ pd.path), st := st, fs := fs,
          trace := [.unlinkOp pd.path] }

/-- `executeCancelDelete` (the `CancelDelete` tool): remove the pending entry
without any I/O. -/
def executeCancelDelete (input : ToolInput) (st : ToolsState) (fs : FS) : ToolOut :=
  match alookup input.deletion_id st.pendingDeletions with
  | none =>
    { result := .err ("No pending deletion found with id: " ++ input.deletion_id),
      st := st, fs := fs, trace := [] }
  | some pd =>
    { result := .okCancelled pd.path,
      st := { st with pendingDeletions := aerase input.deletion_id st.pendingDeletions },
      fs := fs, trace := [] }

/-- `executeProgress`: append a progress entry for the session, keeping the
last 50. -/
def executeProgress (input : ToolInput) (st : ToolsState) (fs : FS) : ToolOut :=
  let entry : ProgressEntry :=
    { step := input.step, details := input.details, percent := input.percent }
  let cur := (alookup st.currentSessionId st.progressTracker).getD []
  let cur := cur ++ [entry]
  let cur := if cur.length > 50 then cur.drop (cur.length - 50) else cur
  { result := .okUnit input.step,
    st := { st with progressTracker := aset st.currentSessionId cur st.progressTracker },
    fs := fs, trace := [] }

/-- Dangerous command substrings blocked by `executeBash` (compared against
the lower-cased command). -/
def dangerousBashPatterns : List String :=
  ["rm -rf /", "mkfs", ":()\x7b", "format c:"]

/-- `executeBash`: substring blocklist, then hand the whole command line to
the system shell (`execAsync`); no permission gate and no pending-deletion
involvement. -/
def executeBash (env : OsEnv) (input : ToolInput) (st : ToolsState) (fs : FS) : ToolOut :=
  if dangerousBashPatterns.any (fun d => strIncludes (strLower input.command) d) then
    { result := .err "Blocked: dangerous command pattern detected",
      st := st, fs := fs, trace := [] }
  else
    let sh := env.shell input.command fs
    { result := .okBash sh.ok sh.stdout sh.stderr, st := st, fs := sh.fs,
      trace := [.execOp input.command] }

/-- `executeWebSearch`: network only (result scraping summarized). -/
def executeWebSearch (env : OsEnv) (input : ToolInput) (st : ToolsState) (fs : FS) : ToolOut :=
  let url := "https://html.duckduckgo.com/html/?q=" ++ input.query
  match env.fetch url with
  | some _ => { result := .okUnit input.query, st := st, fs := fs, trace := [.netGetOp url] }
  | none =>
    { result := .err ("Search failed: " ++ input.query), st := st, fs := fs,
      trace := [.netGetOp url] }

/-- `executeWebFetch`: network only (text extraction summarized). -/
def executeWebFetch (env : OsEnv) (input : ToolInput) (st : ToolsState) (fs : FS) : ToolOut :=
  match env.fetch input.url with
  | some body => { result := .okRead body, st := st, fs := fs, trace := [.netGetOp input.url] }
  | none =>
    { result := .err ("Fetch failed: " ++ input.url), st := st, fs := fs,
      trace := [.netGetOp input.url] }

/-- `executeTodoWrite`: replace the session todo list (in memory only). -/
def executeTodoWrite (input : ToolInput) (st : ToolsState) (fs : FS) : ToolOut :=
  { result := .okUnit "todos",
    st := { st with todoStorage := aset st.currentSessionId input.todos st.todoStorage },
    fs := fs, trace := [] }

/-- `executeTodoRead`: read the session todo list (in memory only). -/
def executeTodoRead (st : ToolsState) (fs : FS) : ToolOut :=
  let todos := (alookup st.currentSessionId st.todoStorage).getD []
  { result := .okList (todos.map (fun t => t.content)), st := st, fs := fs, trace := [] }

/-- `executeCodeAnalysis`: stat, then read the file or glob the directory
(structure extraction summarized). -/
def executeCodeAnalysis (input : ToolInput) (st : ToolsState) (fs : FS) : ToolOut :=
  match alookup input.path fs with
  | none =>
    { result := .err ("ENOENT: no such file " ++ input.path), st := st, fs := fs,
      trace := [.statOp input.path] }
  | some (.file _) =>
    { result := .okUnit input.path, st := st, fs := fs,
      trace := [.statOp input.path, .readFileOp input.path] }
  | some .dir =>
    { result := .okUnit input.path, st := st, fs := fs,
      trace := [.statOp input.path, .globOp "**/*" input.path] }

/-- Temp-file path used by `executeScreenshot`. -/
def screenshotPath (env : OsEnv) : String :=
  env.join2 env.cwd ("screenshot_" ++ env.stamp ++ ".png")

/-- `executeScreenshot`: capture via `nircmd`, a generated PowerShell script,
or `screencapture`/`scrot`, then read the image and `fs.unlink` it (and the
script, on the PowerShell path).  The handler deletes its temp files
directly.  Literal script texts are summarized. -/
def executeScreenshot (env : OsEnv) (st : ToolsState) (fs : FS) : ToolOut :=
  let shot := screenshotPath env
  if env.platformWin && env.nircmd then
    let sh := env.shell ("nircmd savescreenshot " ++ shot) fs
    { result := if sh.ok then .okUnit shot else .err "Screenshot failed",
      st := st, fs := fsErase shot sh.fs,
      trace := [.execOp ("nircmd savescreenshot " ++ shot), .readFileOp shot, .unlinkOp shot] }
  else if env.platformWin then
    let script := env.join2 env.cwd "screenshot_script.ps1"
    let fs₁ := aset script (FsEntry.file "ps-screenshot-script") fs
    let sh := env.shell ("powershell -ExecutionPolicy Bypass -File " ++ script) fs₁
    { result := if sh.ok then .okUnit shot else .err "Screenshot failed",
      st := st, fs := fsErase shot (fsErase script sh.fs),
      trace := [.writeFileOp script,
        .execOp ("powershell -ExecutionPolicy Bypass -File " ++ script),
        .unlinkOp script, .readFileOp shot, .unlinkOp shot] }
  else
    let sh := env.shell ("screencapture -x " ++ shot) fs
    { result := if sh.ok then .okUnit shot else .err "Screenshot failed",
      st := st, fs := fsErase shot sh.fs,
      trace := [.execOp ("screencapture -x " ++ shot), .readFileOp shot, .unlinkOp shot] }

/-- `executeMouseClick`: `nircmd`, a generated PowerShell script (written then
unlinked), or `xdotool`.  Coordinate arithmetic only shapes the command
text and is summarized. -/
def executeMouseClick (env : OsEnv) (st : ToolsState) (fs : FS) : ToolOut :=
  if env.platformWin && env.nircmd then
    let sh := env.shell "nircmd setcursor-and-click" fs
    { result := if sh.ok then .okUnit "click" else .err "Mouse click failed",
      st := st, fs := sh.fs, trace := [.execOp "nircmd setcursor-and-click"] }
  else if env.platformWin then
    let script := env.join2 env.cwd "mouse_script.ps1"
    let fs₁ := aset script (FsEntry.file "ps-mouse-script") fs
    let sh := env.shell ("powershell -ExecutionPolicy Bypass -File " ++ script) fs₁
    { result := if sh.ok then .okUnit "click" else .err "Mouse click failed",
      st := st, fs := fsErase script sh.fs,
      trace := [.writeFileOp script,
        .execOp ("powershell -ExecutionPolicy Bypass -File " ++ script), .unlinkOp script] }
  else
    let sh := env.shell "xdotool mousemove-click" fs
    { result := if sh.ok then .okUnit "click" else .err "Mouse click failed",
      st := st, fs := sh.fs, trace := [.execOp "xdotool mousemove-click"] }

/-- `executeTypeText`: clipboard script or per-character `nircmd` presses on
Windows, PowerShell SendKeys script otherwise on Windows, `xdotool type` on
other platforms.  Scripts are written then unlinked. -/
def executeTypeText (env : OsEnv) (input : ToolInput) (st : ToolsState) (fs : FS) : ToolOut :=
  if env.platformWin && env.nircmd then
    if input.text.length > 10 then
      let script := env.join2 env.cwd "type_clip.ps1"
      let fs₁ := aset script (FsEntry.file "ps-clipboard-script") fs
      let sh := env.shell ("powershell -ExecutionPolicy Bypass -File " ++ script) fs₁
      let sh₂ := env.shell "nircmd sendkeypress ctrl+v" (fsErase script sh.fs)
      { result := if sh₂.ok then .okUnit "typed" else .err "Type text failed",
        st := st, fs := sh₂.fs,
        trace := [.writeFileOp script,
          .execOp ("powershell -ExecutionPolicy Bypass -File " ++ script),
          .unlinkOp script, .execOp "nircmd sendkeypress ctrl+v"] }
    else
      let sh := env.shell "nircmd sendkeypress sequence" fs
      { result := if sh.ok then .okUnit "typed" else .err "Type text failed",
        st := st, fs := sh.fs,
        trace := input.text.toList.map (fun _ => FsOp.execOp "nircmd sendkeypress") }
  else if env.platformWin then
    let script := env.join2 env.cwd "type_script.ps1"
    let fs₁ := aset script (FsEntry.file "ps-sendkeys-script") fs
    let sh := env.shell ("powershell -ExecutionPolicy Bypass -File " ++ script) fs₁
    { result := if sh.ok then .okUnit "typed" else .err "Type text failed",
      st := st, fs := fsErase script sh.fs,
      trace := [.writeFileOp script,
        .execOp ("powershell -ExecutionPolicy Bypass -File " ++ script), .unlinkOp script] }
  else
    let sh := env.shell ("xdotool type " ++ input.text) fs
    { result := if sh.ok then .okUnit "typed" else .err "Type text failed",
      st := st, fs := sh.fs, trace := [.execOp ("xdotool type " ++ input.text)] }

/-- `executeKeyPress`: `nircmd sendkeypress`, a PowerShell SendKeys script
(written then unlinked), or `xdotool key`. -/
def executeKeyPress (env : OsEnv) (input : ToolInput) (st : ToolsState) (fs : FS) : ToolOut :=
  if env.platformWin && env.nircmd then
    let sh := env.shell ("nircmd sendkeypress " ++ input.keys) fs
    { result := if sh.ok then .okUnit input.keys else .err "Key press failed",
      st := st, fs := sh.fs, trace := [.execOp ("nircmd sendkeypress " ++ input.keys)] }
  else if env.platformWin then
    let script := env.join2 env.cwd "keypress_script.ps1"
    let fs₁ := aset script (FsEntry.file "ps-keypress-script") fs
    let sh := env.shell ("powershell -ExecutionPolicy Bypass -File " ++ script) fs₁
    { result := if sh.ok then .okUnit input.keys else .err "Key press failed",
      st := st, fs := fsErase script sh.fs,
      trace := [.writeFileOp script,
        .execOp ("powershell -ExecutionPolicy Bypass -File " ++ script), .unlinkOp script] }
  else
    let sh := env.shell ("xdotool key " ++ input.keys) fs
    { result := if sh.ok then .okUnit input.keys else .err "Key press failed",
      st := st, fs := sh.fs, trace := [.execOp ("xdotool key " ++ input.keys)] }

/-- `executeOpenBrowser`: platform launcher command via the shell. -/
def executeOpenBrowser (env : OsEnv) (input : ToolInput) (st : ToolsState) (fs : FS) : ToolOut :=
  let cmd := if env.platformWin then "start " ++ input.url else "open-or-xdg-open " ++ input.url
  let sh := env.shell cmd fs
  { result := if sh.ok then .okUnit input.url else .err "Open browser failed",
    st := st, fs := sh.fs, trace := [.execOp cmd] }

/-- `executeScroll`: PowerShell wheel script (written then unlinked) on
Windows, `xdotool click` otherwise. -/
def executeScroll (env : OsEnv) (st : ToolsState) (fs : FS) : ToolOut :=
  if env.platformWin then
    let script := env.join2 env.cwd "scroll_script.ps1"
    let fs₁ := aset script (FsEntry.file "ps-scroll-script") fs
    let sh := env.shell ("powershell -ExecutionPolicy Bypass -File " ++ script) fs₁
    { result := if sh.ok then .okUnit "scrolled" else .err "Scroll failed",
      st := st, fs := fsErase script sh.fs,
      trace := [.writeFileOp script,
        .execOp ("powershell -ExecutionPolicy Bypass -File " ++ script), .unlinkOp script] }
  else
    let sh := env.shell "xdotool click scroll" fs
    { result := if sh.ok then .okUnit "scrolled" else .err "Scroll failed",
      st := st, fs := sh.fs, trace := [.execOp "xdotool click scroll"] }

/-- `executeWait`: pure delay, no observable operation in the model. -/
def executeWait (st : ToolsState) (fs : FS) : ToolOut :=
  { result := .okUnit "waited", st := st, fs := fs, trace := [] }

/-- Shared guard of the ten browser-extension tools
(`checkBrowserExtension`): error when no connected extension, otherwise relay
the action over the bridge. -/
def executeBrowserTool (action : String) (st : ToolsState) (fs : FS) : ToolOut :=
  if !st.browserConnected then
    { result := .err "Browser extension not connected. Please install and connect the Chrome extension.",
      st := st, fs := fs, trace := [] }
  else
    { result := .okUnit action, st := st, fs := fs, trace := [.bridgeOp action] }

/-- `executeTool`: the dispatch table, case for case; any unknown name yields
an error result.  All handler exceptions are caught at this boundary in the
source and surface as `err` results, which the handler models produce
directly. -/
def executeTool (env : OsEnv) (fresh name : String) (input : ToolInput)
    (st : ToolsState) (fs : FS) : ToolOut :=
  match name with
  | "Read" => executeRead env fresh input st fs
  | "Write" => executeWrite env fresh input st fs
  | "Edit" => executeEdit env fresh input st fs
  | "Bash" => executeBash env input st fs
  | "Glob" => executeGlob env input st fs
  | "Grep" => executeGrep env input st fs
  | "ListDir" => executeListDir env fresh input st fs
  | "MakeDir" => executeMakeDir env fresh input st fs
  | "Move" => executeMove env fresh input st fs
  | "Copy" => executeCopy env fresh input st fs
  | "Delete" => executeDelete env fresh input st fs
  | "ConfirmDelete" => executeConfirmDelete input st fs
  | "CancelDelete" => executeCancelDelete input st fs
  | "ConfirmPermission" =>
    { result := (confirmPermission env input.permission_id st).1,
      st := (confirmPermission env input.permission_id st).2, fs := fs, trace := [] }
  | "DenyPermission" =>
    { result := (denyPermission input.permission_id st).1,
      st := (denyPermission input.permission_id st).2, fs := fs, trace := [] }
  | "Progress" => executeProgress input st fs
  | "WebSearch" => executeWebSearch env input st fs
  | "WebFetch" => executeWebFetch env input st fs
  | "TodoWrite" => executeTodoWrite input st fs
  | "TodoRead" => executeTodoRead st fs
  | "CodeAnalysis" => executeCodeAnalysis input st fs
  | "Screenshot" => executeScreenshot env st fs
  | "MouseClick" => executeMouseClick env st fs
  | "TypeText" => executeTypeText env input st fs
  | "KeyPress" => executeKeyPress env input st fs
  | "OpenBrowser" => executeOpenBrowser env input st fs
  | "Scroll" => executeScroll env st fs
  | "Wait" => executeWait st fs
  | "BrowserNavigate" => executeBrowserTool "navigate" st fs
  | "BrowserClick" => executeBrowserTool "click" st fs
  | "BrowserType" => executeBrowserTool "type" st fs
  | "BrowserRead" => executeBrowserTool "read" st fs
  | "BrowserScreenshot" => executeBrowserTool "screenshot" st fs
  | "BrowserScroll" => executeBrowserTool "scroll" st fs
  | "BrowserGetTabs" => executeBrowserTool "getTabs" st fs
  | "BrowserSwitchTab" => executeBrowserTool "switchTab" st fs
  | "BrowserFillForm" => executeBrowserTool "fillForm" st fs
  | "BrowserGetElements" => executeBrowserTool "getElements" st fs
  | other => { result := .err ("Unknown tool: " ++ other), st := st, fs := fs, trace := [] }

/-- Tool names whose handlers either hand a command line to the system shell
or unlink their own temp files; the ones outside the two-phase deletion
discipline. -/
def shellOrTempToolNames : List String :=
  ["Bash", "ConfirmDelete", "Screenshot", "MouseClick", "TypeText",
   "KeyPress", "OpenBrowser", "Scroll"]

/-- Empty tool-module state with a current session. -/
def initToolsState (sessionId : String) : ToolsState :=
  { todoStorage := [], pendingDeletions := [], pendingPermissions := [],
    approvedPaths := [], progressTracker := [], currentSessionId := sessionId,
    browserConnected := false }

theorem traceClean_map_readFileOp (l : List String) :
    traceClean (l.map FsOp.readFileOp) = true := by
  induction l with
  | nil => rfl
  | cons h t ih => simp_all [traceClean, opDeletes]

theorem executeRead_clean (env : OsEnv) (fresh : String) (input : ToolInput)
    (st : ToolsState) (fs : FS) :
    traceClean (executeRead env fresh input st fs).trace = true := by
  simp only [executeRead]
  repeat' split
  all_goals rfl

theorem executeWrite_clean (env : OsEnv) (fresh : String) (input : ToolInput)
    (st : ToolsState) (fs : FS) :
    traceClean (executeWrite env fresh input st fs).trace = true := by
  simp only [executeWrite]
  repeat' split
  all_goals rfl

theorem executeEdit_clean (env : OsEnv) (fresh : String) (input : ToolInput)
    (st : ToolsState) (fs : FS) :
    traceClean (executeEdit env fresh input st fs).trace = true := by
  simp only [executeEdit]
  repeat' split
  all_goals rfl

theorem executeGlob_clean (env : OsEnv) (input : ToolInput) (st : ToolsState) (fs : FS) :
    traceClean (executeGlob env input st fs).trace = true := by
  simp only [executeGlob]
  rfl

theorem executeGrep_clean (env : OsEnv) (input : ToolInput) (st : ToolsState) (fs : FS) :
    traceClean (executeGrep env input st fs).trace = true := by
  simp only [executeGrep]
  repeat' split
  all_goals
    simp [traceClean, opDeletes, List.all_eq_true] <;>
    intro o ho <;>
    rcases List.mem_map.mp (List.mem_of_mem_take ho) with ⟨q, hq, rfl⟩ <;>
    rfl

theorem executeListDir_clean (env : OsEnv) (fresh : String) (input : ToolInput)
    (st : ToolsState) (fs : FS) :
    traceClean (executeListDir env fresh input st fs).trace = true := by
  simp only [executeListDir]
  repeat' split
  all_goals rfl

theorem executeMakeDir_clean (env : OsEnv) (fresh : String) (input : ToolInput)
    (st : ToolsState) (fs : FS) :
    traceClean (executeMakeDir env fresh input st fs).trace = true := by
  simp only [executeMakeDir]
  repeat' split
  all_goals rfl

theorem executeMove_clean (env : OsEnv) (fresh : String) (input : ToolInput)
    (st : ToolsState) (fs : FS) :
    traceClean (executeMove env fresh input st fs).trace = true := by
  simp only [executeMove]
  repeat' split
  all_goals rfl

theorem executeCopy_clean (env : OsEnv) (fresh : String) (input : ToolInput)
    (st : ToolsState) (fs : FS) :
    traceClean (executeCopy env fresh input st fs).trace = true := by
  simp only [executeCopy]
  repeat' split
  all_goals rfl

theorem executeDelete_clean (env : OsEnv) (fresh : String) (input : ToolInput)
    (st : ToolsState) (fs : FS) :
    traceClean (executeDelete env fresh input st fs).trace = true := by
  simp only [executeDelete]
  repeat' split
  all_goals rfl

theorem executeCancelDelete_clean (input : ToolInput) (st : ToolsState) (fs : FS) :
    traceClean (executeCancelDelete input st fs).trace = true := by
  simp only [executeCancelDelete]
  repeat' split
  all_goals rfl

theorem executeProgress_clean (input : ToolInput) (st : ToolsState) (fs : FS) :
    traceClean (executeProgress input st fs).trace = true := by
  simp only [executeProgress]
  rfl

theorem executeWebSearch_clean (env : OsEnv) (input : ToolInput) (st : ToolsState) (fs : FS) :
    traceClean (executeWebSearch env input st fs).trace = true := by
  simp only [executeWebSearch]
  repeat' split
  all_goals rfl

theorem executeWebFetch_clean (env : OsEnv) (input : ToolInput) (st : ToolsState) (fs : FS) :
    traceClean (executeWebFetch env input st fs).trace = true := by
  simp only [executeWebFetch]
  repeat' split
  all_goals rfl

theorem executeTodoWrite_clean (input : ToolInput) (st : ToolsState) (fs : FS) :
    traceClean (executeTodoWrite input st fs).trace = true := by
  simp only [executeTodoWrite]
  rfl

theorem executeTodoRead_clean (st : ToolsState) (fs : FS) :
    traceClean (executeTodoRead st fs).trace = true := by
  simp only [executeTodoRead]
  rfl

theorem executeCodeAnalysis_clean (input : ToolInput) (st : ToolsState) (fs : FS) :
    traceClean (executeCodeAnalysis input st fs).trace = true := by
  simp only [executeCodeAnalysis]
  repeat' split
  all_goals rfl

theorem executeWait_clean (st : ToolsState) (fs : FS) :
    traceClean (executeWait st fs).trace = true := by
  simp only [executeWait]
  rfl

theorem executeBrowserTool_clean (action : String) (st : ToolsState) (fs : FS) :
    traceClean (executeBrowserTool action st fs).trace = true := by
  simp only [executeBrowserTool]
  repeat' split
  all_goals rfl

theorem executeRead_pend (env : OsEnv) (fresh : String) (input : ToolInput)
    (st : ToolsState) (fs : FS) :
    (executeRead env fresh input st fs).st.pendingDeletions = st.pendingDeletions := by
  simp only [executeRead, requestPathPermission]
  repeat' split
  all_goals rfl

theorem executeWrite_pend (env : OsEnv) (fresh : String) (input : ToolInput)
    (st : ToolsState) (fs : FS) :
    (executeWrite env fresh input st fs).st.pendingDeletions = st.pendingDeletions := by
  simp only [executeWrite, requestPathPermission]
  repeat' split
  all_goals rfl

theorem executeEdit_pend (env : OsEnv) (fresh : String) (input : ToolInput)
    (st : ToolsState) (fs : FS) :
    (executeEdit env fresh input st fs).st.pendingDeletions = st.pendingDeletions := by
  simp only [executeEdit, requestPathPermission]
  repeat' split
  all_goals rfl

theorem executeBash_pend (env : OsEnv) (input : ToolInput) (st : ToolsState) (fs : FS) :
    (executeBash env input st fs).st.pendingDeletions = st.pendingDeletions := by
  simp only [executeBash]
  repeat' split
  all_goals rfl

theorem executeGlob_pend (env : OsEnv) (input : ToolInput) (st : ToolsState) (fs : FS) :
    (executeGlob env input st fs).st.pendingDeletions = st.pendingDeletions := by
  simp only [executeGlob]

theorem executeGrep_pend (env : OsEnv) (input : ToolInput) (st : ToolsState) (fs : FS) :
    (executeGrep env input st fs).st.pendingDeletions = st.pendingDeletions := by
  simp only [executeGrep]
  repeat' split
  all_goals rfl

theorem executeListDir_pend (env : OsEnv) (fresh : String) (input : ToolInput)
    (st : ToolsState) (fs : FS) :
    (executeListDir env fresh input st fs).st.pendingDeletions = st.pendingDeletions := by
  simp only [executeListDir, requestPathPermission]
  repeat' split
  all_goals rfl

theorem executeMakeDir_pend (env : OsEnv) (fresh : String) (input : ToolInput)
    (st : ToolsState) (fs : FS) :
    (executeMakeDir env fresh input st fs).st.pendingDeletions = st.pendingDeletions := by
  simp only [executeMakeDir, requestPathPermission]
  repeat' split
  all_goals rfl

theorem executeMove_pend (env : OsEnv) (fresh : String) (input : ToolInput)
    (st : ToolsState) (fs : FS) :
    (executeMove env fresh input st fs).st.pendingDeletions = st.pendingDeletions := by
  simp only [executeMove, requestPathPermission]
  repeat' split
  all_goals rfl

theorem executeCopy_pend (env : OsEnv) (fresh : String) (input : ToolInput)
    (st : ToolsState) (fs : FS) :
    (executeCopy env fresh input st fs).st.pendingDeletions = st.pendingDeletions := by
  simp only [executeCopy, requestPathPermission]
  repeat' split
  all_goals rfl

theorem confirmPermission_pend (env : OsEnv) (pid : String) (st : ToolsState) :
    ((confirmPermission env pid st).2).pendingDeletions = st.pendingDeletions := by
  simp only [confirmPermission]
  repeat' split
  all_goals rfl

theorem denyPermission_pend (pid : String) (st : ToolsState) :
    ((denyPermission pid st).2).pendingDeletions = st.pendingDeletions := by
  simp only [denyPermission]
  repeat' split
  all_goals rfl

theorem executeProgress_pend (input : ToolInput) (st : ToolsState) (fs : FS) :
    (executeProgress input st fs).st.pendingDeletions = st.pendingDeletions := by
  simp only [executeProgress]

theorem executeWebSearch_pend (env : OsEnv) (input : ToolInput) (st : ToolsState) (fs : FS) :
    (executeWebSearch env input st fs).st.pendingDeletions = st.pendingDeletions := by
  simp only [executeWebSearch]
  repeat' split
  all_goals rfl

theorem executeWebFetch_pend (env : OsEnv) (input : ToolInput) (st : ToolsState) (fs : FS) :
    (executeWebFetch env input st fs).st.pendingDeletions = st.pendingDeletions := by
  simp only [executeWebFetch]
  repeat' split
  all_goals rfl

theorem executeTodoWrite_pend (input : ToolInput) (st : ToolsState) (fs : FS) :
    (executeTodoWrite input st fs).st.pendingDeletions = st.pendingDeletions := by
  simp only [executeTodoWrite]

theorem executeTodoRead_pend (st : ToolsState) (fs : FS) :
    (executeTodoRead st fs).st.pendingDeletions = st.pendingDeletions := by
  simp only [executeTodoRead]

theorem executeCodeAnalysis_pend (input : ToolInput) (st : ToolsState) (fs : FS) :
    (executeCodeAnalysis input st fs).st.pendingDeletions = st.pendingDeletions := by
  simp only [executeCodeAnalysis]
  repeat' split
  all_goals rfl

theorem executeScreenshot_pend (env : OsEnv) (st : ToolsState) (fs : FS) :
    (executeScreenshot env st fs).st.pendingDeletions = st.pendingDeletions := by
  simp only [executeScreenshot]
  repeat' split
  all_goals rfl

theorem executeMouseClick_pend (env : OsEnv) (st : ToolsState) (fs : FS) :
    (executeMouseClick env st fs).st.pendingDeletions = st.pendingDeletions := by
  simp only [executeMouseClick]
  repeat' split
  all_goals rfl

theorem executeTypeText_pend (env : OsEnv) (input : ToolInput) (st : ToolsState) (fs : FS) :
    (executeTypeText env input st fs).st.pendingDeletions = st.pendingDeletions := by
  simp only [executeTypeText]
  repeat' split
  all_goals rfl

theorem executeKeyPress_pend (env : OsEnv) (input : ToolInput) (st : ToolsState) (fs : FS) :
    (executeKeyPress env input st fs).st.pendingDeletions = st.pendingDeletions := by
  simp only [executeKeyPress]
  repeat' split
  all_goals rfl

theorem executeOpenBrowser_pend (env : OsEnv) (input : ToolInput) (st : ToolsState) (fs : FS) :
    (executeOpenBrowser env input st fs).st.pendingDeletions = st.pendingDeletions := by
  simp only [executeOpenBrowser]

theorem executeScroll_pend (env : OsEnv) (st : ToolsState) (fs : FS) :
    (executeScroll env st fs).st.pendingDeletions = st.pendingDeletions := by
  simp only [executeScroll]
  repeat' split
  all_goals rfl

theorem executeWait_pend (st : ToolsState) (fs : FS) :
    (executeWait st fs).st.pendingDeletions = st.pendingDeletions := by
  simp only [executeWait]

theorem executeBrowserTool_pend (action : String) (st : ToolsState) (fs : FS) :
    (executeBrowserTool action st fs).st.pendingDeletions = st.pendingDeletions := by
  simp only [executeBrowserTool]
  repeat' split
  all_goals rfl

theorem executeConfirmDelete_pend {input : ToolInput} {st : ToolsState} {fs : FS}
    {id : String} {pd : PendingDeletion}
    (h : alookup id (executeConfirmDelete input st fs).st.pendingDeletions = some pd) :
    alookup id st.pendingDeletions = some pd := by
  simp only [executeConfirmDelete] at h
  repeat' split at h
  all_goals first
    | exact h
    | exact alookup_aerase_imp h

theorem executeCancelDelete_pend {input : ToolInput} {st : ToolsState} {fs : FS}
    {id : String} {pd : PendingDeletion}
    (h : alookup id (executeCancelDelete input st fs).st.pendingDeletions = some pd) :
    alookup id st.pendingDeletions = some pd := by
  simp only [executeCancelDelete] at h
  repeat' split at h
  all_goals first
    | exact h
    | exact alookup_aerase_imp h

set_option maxHeartbeats 3200000 in
/-- C1 (amended): among the tool handlers, the deletion-capable primitives
are confined as follows.  Every handler outside `shellOrTempToolNames`
(everything except `Bash`, which forwards an arbitrary command line to the
system shell behind a four-pattern substring blocklist, and the computer-use
handlers, which unlink their own temporary script and image files) produces a
trace with no `fs.rm`, no `fs.unlink` and no shell execution; the
`ConfirmDelete` handler touches the filesystem only through `fs.rm` or
`fs.unlink` on the path of the pending entry registered under the supplied
`deletion_id`, and only when that entry exists; and no handler other than
`Delete` ever introduces a pending-deletion entry.  The unrestricted claim
(every deletion passes through the request/confirm flow, for every tool
invocation) is refuted by `bash_shell_deletion_bypasses_pending`. -/
theorem tools_deletion_primitives_only_confirmdelete
    (env : OsEnv) (fresh name : String) (input : ToolInput)
    (st : ToolsState) (fs : FS) :
    (name ∉ shellOrTempToolNames →
      traceClean (executeTool env fresh name input st fs).trace = true) ∧
    (∀ op ∈ (executeTool env fresh "ConfirmDelete" input st fs).trace,
      ∃ pd, alookup input.deletion_id st.pendingDeletions = some pd ∧
        (op = FsOp.rmOp pd.path pd.recursive ∨ op = FsOp.unlinkOp pd.path)) ∧
    (name ≠ "Delete" →
      ∀ id pd,
        alookup id (executeTool env fresh name input st fs).st.pendingDeletions = some pd →
        alookup id st.pendingDeletions = some pd) := by
  refine ⟨?_, ?_, ?_⟩
  · intro hname
    unfold executeTool
    repeat' split
    all_goals
      first
        | rfl
        | apply executeRead_clean
        | apply executeWrite_clean
        | apply executeEdit_clean
        | apply executeGlob_clean
        | apply executeGrep_clean
        | apply executeListDir_clean
        | apply executeMakeDir_clean
        | apply executeMove_clean
        | apply executeCopy_clean
        | apply executeDelete_clean
        | apply executeCancelDelete_clean
        | apply executeProgress_clean
        | apply executeWebSearch_clean
        | apply executeWebFetch_clean
        | apply executeTodoWrite_clean
        | apply executeTodoRead_clean
        | apply executeCodeAnalysis_clean
        | apply executeWait_clean
        | apply executeBrowserTool_clean
        | simp_all [shellOrTempToolNames]
  · intro op hop
    have hred : executeTool env fresh "ConfirmDelete" input st fs =
        executeConfirmDelete input st fs := rfl
    rw [hred] at hop
    unfold executeConfirmDelete at hop
    repeat' split at hop
    all_goals simp only [List.mem_singleton, List.not_mem_nil] at hop
    all_goals
      subst hop
      refine ⟨_, by assumption, ?_⟩
      first
        | exact Or.inl rfl
        | exact Or.inr rfl
  · intro hname id pd hl
    unfold executeTool at hl
    repeat' split at hl
    all_goals
      first
        | exact hl
        | (rw [executeRead_pend] at hl; exact hl)
        | (rw [executeWrite_pend] at hl; exact hl)
        | (rw [executeEdit_pend] at hl; exact hl)
        | (rw [executeBash_pend] at hl; exact hl)
        | (rw [executeGlob_pend] at hl; exact hl)
        | (rw [executeGrep_pend] at hl; exact hl)
        | (rw [executeListDir_pend] at hl; exact hl)
        | (rw [executeMakeDir_pend] at hl; exact hl)
        | (rw [executeMove_pend] at hl; exact hl)
        | (rw [executeCopy_pend] at hl; exact hl)
        | (rw [confirmPermission_pend] at hl; exact hl)
        | (rw [denyPermission_pend] at hl; exact hl)
        | (rw [executeProgress_pend] at hl; exact hl)
        | (rw [executeWebSearch_pend] at hl; exact hl)
        | (rw [executeWebFetch_pend] at hl; exact hl)
        | (rw [executeTodoWrite_pend] at hl; exact hl)
        | (rw [executeTodoRead_pend] at hl; exact hl)
        | (rw [executeCodeAnalysis_pend] at hl; exact hl)
        | (rw [executeScreenshot_pend] at hl; exact hl)
        | (rw [executeMouseClick_pend] at hl; exact hl)
        | (rw [executeTypeText_pend] at hl; exact hl)
        | (rw [executeKeyPress_pend] at hl; exact hl)
        | (rw [executeOpenBrowser_pend] at hl; exact hl)
        | (rw [executeScroll_pend] at hl; exact hl)
        | (rw [executeWait_pend] at hl; exact hl)
        | (rw [executeBrowserTool_pend] at hl; exact hl)
        | exact executeConfirmDelete_pend hl
        | exact executeCancelDelete_pend hl
        | simp_all

/-- Shell semantics for the counterexample: the usual meaning of `rm` on one
concrete file, identity otherwise. -/
def shellDemo : String → FS → ShellOut := fun cmd fs =>
  if cmd = "rm /tmp/junk.txt" then
    { fs := fsErase "/tmp/junk.txt" fs, ok := true, stdout := "", stderr := "" }
  else
    { fs := fs, ok := true, stdout := "", stderr := "" }

/-- Concrete host environment for evaluating the tool module. -/
def osEnvDemo : OsEnv :=
  { pnorm := fun s => s, join2 := fun a b => a ++ "/" ++ b,
    dirname := fun _ => "/", userHome := "/home/u", cwd := "/work", stamp := "0",
    platformWin := false, nircmd := false, shell := shellDemo,
    globSem := fun _ _ _ => [], fetch := fun _ => none }

/-- One file, about to be deleted without any two-phase flow. -/
def fsJunk : FS := [("/tmp/junk.txt", FsEntry.file "scratch")]

/-- C1 counterexample: a `Bash` tool invocation deletes a file directly.  The
command `rm /tmp/junk.txt` passes the dangerous-pattern blocklist, the
handler forwards it to the system shell, the file is gone afterwards, no
pending deletion was created or consumed, and the handler reports success —
so a deletion occurred through a tool handler other than `ConfirmDelete`,
with no prior `Delete` request. -/
theorem bash_shell_deletion_bypasses_pending :
    alookup "/tmp/junk.txt" fsJunk = some (FsEntry.file "scratch") ∧
    (executeTool osEnvDemo "id1" "Bash" { command := "rm /tmp/junk.txt" }
        (initToolsState "s1") fsJunk).fs = [] ∧
    (executeTool osEnvDemo "id1" "Bash" { command := "rm /tmp/junk.txt" }
        (initToolsState "s1") fsJunk).st.pendingDeletions = [] ∧
    (executeTool osEnvDemo "id1" "Bash" { command := "rm /tmp/junk.txt" }
        (initToolsState "s1") fsJunk).result = ToolResult.okBash true "" "" := by
  decide

theorem tools_deletion_primitives_only_confirmdelete_witness :
    ("Read" ∉ shellOrTempToolNames ∧ "Read" ≠ "Delete") ∧
      traceClean (executeTool osEnvDemo "id2" "Read" { file_path := "/tmp/junk.txt" }
        (initToolsState "s1") fsJunk).trace = true :=
  ⟨⟨by decide, by decide⟩,
   (tools_deletion_primitives_only_confirmdelete osEnvDemo "id2" "Read"
      { file_path := "/tmp/junk.txt" } (initToolsState "s1") fsJunk).1 (by decide)⟩

/-- `isPathApproved` reads only the approved-path map and the session id. -/
theorem isPathApproved_congr {env : OsEnv} {st₁ st₂ : ToolsState} {sid p : String}
    (hA : st₁.approvedPaths = st₂.approvedPaths) :
    isPathApproved env st₁ sid p = isPathApproved env st₂ sid p := by
  unfold isPathApproved
  rw [hA]

/-- The pending entry `executeRead` registers for a sensitive unapproved
path. -/
def readPermEntry (p sid : String) : PendingPerm :=
  { path := p, operation := "read", reason := "Reading files from this location",
    sessionId := sid }

/-- Evaluation of `executeRead` on a sensitive, unapproved path: the
permission branch. -/
theorem executeRead_requires {env : OsEnv} {fresh p : String} (st : ToolsState) (fs : FS)
    (h : (isSensitivePath env p && !(isPathApproved env st st.currentSessionId p)) = true) :
    executeRead env fresh { file_path := p } st fs =
      { result := ToolResult.requiresPermission fresh p "read",
        st := { st with pendingPermissions := aset fresh (readPermEntry p st.currentSessionId) st.pendingPermissions },
        fs := fs, trace := [] } := by
  unfold executeRead requestPathPermission readPermEntry
  simp only [h]
  rfl

/-- C10: the tool-module `denyPermission` deletes only the pending entry and
records nothing about the path, so the very next sensitive-path operation on
the same path for the same session is asked again: `executeRead` returns a
fresh `requires_permission` result under the new fresh id, registering a new
pending entry, and the approved-path map is untouched throughout — there is
no remembered denied result. -/
theorem deny_leaves_no_denied_record (env : OsEnv) (f₁ f₂ p : String)
    (st : ToolsState) (fs : FS)
    (hs : isSensitivePath env p = true)
    (hap : isPathApproved env st st.currentSessionId p = false) :
    (executeRead env f₁ { file_path := p } st fs).result =
      ToolResult.requiresPermission f₁ p "read" ∧
    (denyPermission f₁ (executeRead env f₁ { file_path := p } st fs).st).1 =
      ToolResult.okDenied p ∧
    ((denyPermission f₁ (executeRead env f₁ { file_path := p } st fs).st).2).approvedPaths =
      st.approvedPaths ∧
    (executeRead env f₂ { file_path := p }
        ((denyPermission f₁ (executeRead env f₁ { file_path := p } st fs).st).2) fs).result =
      ToolResult.requiresPermission f₂ p "read" ∧
    alookup f₂ ((executeRead env f₂ { file_path := p }
        ((denyPermission f₁ (executeRead env f₁ { file_path := p } st fs).st).2) fs).st).pendingPermissions =
      some (readPermEntry p st.currentSessionId) := by
  have hcond : (isSensitivePath env p && !(isPathApproved env st st.currentSessionId p)) = true := by
    rw [hs, hap]
    rfl
  have h₁ := @executeRead_requires env f₁ p st fs hcond
  have hperm : alookup f₁ (executeRead env f₁ { file_path := p } st fs).st.pendingPermissions =
      some (readPermEntry p st.currentSessionId) := by
    rw [h₁]
    exact alookup_aset_self ..
  have h₂ : denyPermission f₁ (executeRead env f₁ { file_path := p } st fs).st =
      (ToolResult.okDenied p,
       { (executeRead env f₁ { file_path := p } st fs).st with pendingPermissions := aerase f₁ (executeRead env f₁ { file_path := p } st fs).st.pendingPermissions }) := by
    unfold denyPermission
    rw [hperm]
    rfl
  have hApaths : ((denyPermission f₁ (executeRead env f₁ { file_path := p } st fs).st).2).approvedPaths =
      st.approvedPaths := by
    rw [h₂, h₁]
  have hSid : ((denyPermission f₁ (executeRead env f₁ { file_path := p } st fs).st).2).currentSessionId =
      st.currentSessionId := by
    rw [h₂, h₁]
  have hcond₂ : (isSensitivePath env p &&
      !(isPathApproved env ((denyPermission f₁ (executeRead env f₁ { file_path := p } st fs).st).2)
          ((denyPermission f₁ (executeRead env f₁ { file_path := p } st fs).st).2).currentSessionId p)) = true := by
    rw [hs, hSid, isPathApproved_congr hApaths, hap]
    rfl
  have h₃ := @executeRead_requires env f₂ p
    ((denyPermission f₁ (executeRead env f₁ { file_path := p } st fs).st).2) fs hcond₂
  refine ⟨by rw [h₁], by rw [h₂], hApaths, by rw [h₃], ?_⟩
  rw [h₃]
  dsimp only
  rw [hSid]
  exact alookup_aset_self ..

theorem deny_leaves_no_denied_record_witness :
    (isSensitivePath osEnvDemo "/home/u/Documents/x.txt" = true ∧
      isPathApproved osEnvDemo (initToolsState "s1") "s1" "/home/u/Documents/x.txt" = false) ∧
      (executeRead osEnvDemo "f2" { file_path := "/home/u/Documents/x.txt" }
          ((denyPermission "f1"
            (executeRead osEnvDemo "f1" { file_path := "/home/u/Documents/x.txt" }
              (initToolsState "s1") []).st).2) []).result =
        ToolResult.requiresPermission "f2" "/home/u/Documents/x.txt" "read" :=
  ⟨⟨by rfl, by rfl⟩,
   (deny_leaves_no_denied_record osEnvDemo "f1" "f2" "/home/u/Documents/x.txt"
      (initToolsState "s1") [] (by rfl) (by rfl)).2.2.2.1⟩

end Tools

theorem denied_prefix_never_allowed_witness :
    Sandbox.inDenied deniedStDemo "s1" "/home/u/documents" = true ∧
      strStarts (pathEnvDemo.norm "/home/u/documents/secret.txt") "/home/u/documents" = true ∧
      Sandbox.inDenied (gateRun pathEnvDemo deniedStDemo unrelatedApproveOps)
        "s1" "/home/u/documents" = true ∧
      ((Sandbox.validateOperation pathEnvDemo "perm10" "s1" "read"
          "/home/u/documents/secret.txt" none
          (gateRun pathEnvDemo deniedStDemo unrelatedApproveOps)).1).allowed = false :=
  ⟨by rfl, by rfl,
   (denied_prefix_never_allowed pathEnvDemo deniedStDemo "s1" "/home/u/documents"
      "/home/u/documents/secret.txt" "perm10" "read" none unrelatedApproveOps
      (by rfl) (by rfl)).1,
   (denied_prefix_never_allowed pathEnvDemo deniedStDemo "s1" "/home/u/documents"
      "/home/u/documents/secret.txt" "perm10" "read" none unrelatedApproveOps
      (by rfl) (by rfl)).2⟩

theorem approve_pendingPermissions_of_some (env : PathEnv) (pid : String) (st : SandboxState)
    {perm : Permission} (h : alookup pid st.pendingPermissions = some perm) :
    ((Sandbox.approvePermission env pid st).2).pendingPermissions =
      aerase pid st.pendingPermissions := by
  simp only [Sandbox.approvePermission, h]
  rfl

theorem deny_pendingPermissions_of_some (env : PathEnv) (pid : String) (st : SandboxState)
    {perm : Permission} (h : alookup pid st.pendingPermissions = some perm) :
    ((Sandbox.denyPermission env pid st).2).pendingPermissions =
      aerase pid st.pendingPermissions := by
  simp only [Sandbox.denyPermission, h]
  rfl

theorem confirmPermission_pendingPermissions_of_some (env : Tools.OsEnv) (pid : String)
    (st : Tools.ToolsState) {perm : Tools.PendingPerm}
    (h : alookup pid st.pendingPermissions = some perm) :
    ((Tools.confirmPermission env pid st).2).pendingPermissions =
      aerase pid st.pendingPermissions := by
  simp only [Tools.confirmPermission, h]

theorem denyPermission_pendingPermissions_of_some (pid : String)
    (st : Tools.ToolsState) {perm : Tools.PendingPerm}
    (h : alookup pid st.pendingPermissions = some perm) :
    ((Tools.denyPermission pid st).2).pendingPermissions =
      aerase pid st.pendingPermissions := by
  simp only [Tools.denyPermission, h]

theorem approvePermission_none (env : PathEnv) (pid : String) (st : SandboxState)
    (h : alookup pid st.pendingPermissions = none) :
    Sandbox.approvePermission env pid st = (none, st) := by
  simp only [Sandbox.approvePermission, h]

theorem denyPermission_none (env : PathEnv) (pid : String) (st : SandboxState)
    (h : alookup pid st.pendingPermissions = none) :
    Sandbox.denyPermission env pid st = (none, st) := by
  simp only [Sandbox.denyPermission, h]

theorem toolsConfirmPermission_none (env : Tools.OsEnv) (pid : String) (st : Tools.ToolsState)
    (h : alookup pid st.pendingPermissions = none) :
    Tools.confirmPermission env pid st =
      (Tools.ToolResult.err "Permission request not found or expired", st) := by
  simp only [Tools.confirmPermission, h]

theorem toolsDenyPermission_none (pid : String) (st : Tools.ToolsState)
    (h : alookup pid st.pendingPermissions = none) :
    Tools.denyPermission pid st =
      (Tools.ToolResult.err "Permission request not found", st) := by
  simp only [Tools.denyPermission, h]

/-- C9: resolving the same permission id twice is safe, in both permission
stores of the repository.  In the sandbox (`ollama.ts`), the first
`approvePermission` (resp. `denyPermission`) returns the resolved permission
and puts the normalized path into the approved (resp. denied) set of its
session; the second call on the same id returns the null "not found" result
and leaves the state exactly unchanged, so no approved-path entry is
duplicated.  In the tool module (README listing), `confirmPermission` and
`denyPermission` behave the same way with an error-object "not found"
result. -/
theorem permission_resolution_idempotent (env : PathEnv) (envT : Tools.OsEnv)
    (pid : String) (st : SandboxState) (stT : Tools.ToolsState)
    (perm : Permission) (permT : Tools.PendingPerm)
    (h : alookup pid st.pendingPermissions = some perm)
    (hT : alookup pid stT.pendingPermissions = some permT) :
    ((Sandbox.approvePermission env pid st).1 = some { perm with status := "approved" } ∧
     Sandbox.inApproved (Sandbox.approvePermission env pid st).2 (Sandbox.sessOf perm)
       (env.norm perm.path) = true ∧
     Sandbox.approvePermission env pid (Sandbox.approvePermission env pid st).2 =
       (none, (Sandbox.approvePermission env pid st).2)) ∧
    ((Sandbox.denyPermission env pid st).1 = some { perm with status := "denied" } ∧
     Sandbox.inDenied (Sandbox.denyPermission env pid st).2 (Sandbox.sessOf perm)
       (env.norm perm.path) = true ∧
     Sandbox.denyPermission env pid (Sandbox.denyPermission env pid st).2 =
       (none, (Sandbox.denyPermission env pid st).2)) ∧
    ((Tools.confirmPermission envT pid stT).1 = Tools.ToolResult.okApproved permT.path ∧
     Tools.confirmPermission envT pid ((Tools.confirmPermission envT pid stT).2) =
       (Tools.ToolResult.err "Permission request not found or expired",
        (Tools.confirmPermission envT pid stT).2)) ∧
    ((Tools.denyPermission pid stT).1 = Tools.ToolResult.okDenied permT.path ∧
     Tools.denyPermission pid ((Tools.denyPermission pid stT).2) =
       (Tools.ToolResult.err "Permission request not found",
        (Tools.denyPermission pid stT).2)) := by
  refine ⟨⟨?_, ?_, ?_⟩, ⟨?_, ?_, ?_⟩, ⟨?_, ?_⟩, ⟨?_, ?_⟩⟩
  · simp only [Sandbox.approvePermission, h]
  · unfold Sandbox.inApproved
    rw [approve_approvedPaths_of_some env pid st h, alookup_aset_self]
    simp [mem_setAdd_iff]
  · have hnone : alookup pid ((Sandbox.approvePermission env pid st).2).pendingPermissions = none := by
      rw [approve_pendingPermissions_of_some env pid st h]
      exact alookup_aerase_self ..
    exact approvePermission_none env pid _ hnone
  · simp only [Sandbox.denyPermission, h]
  · unfold Sandbox.inDenied
    rw [deny_deniedPaths_of_some env pid st h, alookup_aset_self]
    simp [mem_setAdd_iff]
  · have hnone : alookup pid ((Sandbox.denyPermission env pid st).2).pendingPermissions = none := by
      rw [deny_pendingPermissions_of_some env pid st h]
      exact alookup_aerase_self ..
    exact denyPermission_none env pid _ hnone
  · simp only [Tools.confirmPermission, hT]
  · have hnone : alookup pid ((Tools.confirmPermission envT pid stT).2).pendingPermissions = none := by
      rw [confirmPermission_pendingPermissions_of_some envT pid stT hT]
      exact alookup_aerase_self ..
    exact toolsConfirmPermission_none envT pid _ hnone
  · simp only [Tools.denyPermission, hT]
  · have hnone : alookup pid ((Tools.denyPermission pid stT).2).pendingPermissions = none := by
      rw [denyPermission_pendingPermissions_of_some pid stT hT]
      exact alookup_aerase_self ..
    exact toolsDenyPermission_none pid _ hnone

/-- Pending sandbox permission for the C9 witness. -/
def permDemo : Permission :=
  { id := "p1", sessionId := "s1", operation := "read",
    path := "/home/u/Documents/x.txt", reason := "demo", status := "pending" }

/-- Sandbox state holding the pending permission `p1`. -/
def sandboxStDemo : SandboxState :=
  { Sandbox.initState with pendingPermissions := [("p1", permDemo)] }

/-- Pending tool-module permission for the C9 witness. -/
def permTDemo : Tools.PendingPerm :=
  { path := "/home/u/Documents/x.txt", operation := "read", reason := "demo",
    sessionId := "s1" }

/-- Tool-module state holding the pending permission `p1`. -/
def toolsStDemo : Tools.ToolsState :=
  { Tools.initToolsState "s1" with pendingPermissions := [("p1", permTDemo)] }

/-!
Turn controller: `AntigravityProvider.query` and `addToHistory` of
`src/server/providers/antigravity-provider.js`.

The provider network and stream decoding are abstracted into a per-turn
script: turn `n` either fails at the HTTP level (`response.ok` false), throws,
or returns the decoded `StreamResult` that `processStream` would produce.
Tool execution (`executeTool` of the tools module) appears as an oracle
`execT` from tool name and raw input to the serialized result, which is sound
because the dispatcher catches every handler exception and always returns a
value.  The generator `query` is modeled as the full list of events it
yields. -/

namespace Provider

/-- Assistant content block (`assistantContent` elements). -/
inductive Block
  | textBlock (s : String)
  | toolUseBlock (id name inputStr : String)
deriving Repr, DecidableEq

/-- Tool-result block pushed into history (`toolResults` elements). -/
structure ToolResultBlock where
  tool_use_id : String
  content : String
deriving Repr, DecidableEq

/-- Message content: a plain string, assistant blocks, or tool results. -/
inductive MsgContent
  | str (s : String)
  | blocks (bs : List Block)
  | results (rs : List ToolResultBlock)
deriving Repr, DecidableEq

/-- Conversation-history message. -/
structure Msg where
  role : String
  content : MsgContent
deriving Repr, DecidableEq

/-- `addToHistory`: push, and when the history exceeds 100 entries cut it to
the most recent 80 (`history.splice(0, history.length - 80)`). -/
def addToHistory (history : List Msg) (m : Msg) : List Msg :=
  let h := history ++ [m]
  if h.length > 100 then h.drop (h.length - 80) else h

/-- A decoded tool call (`{id, name, input}`; the structured input is kept as
its raw serialized form, which the model threads through unchanged). -/
structure ToolCallM where
  id : String
  name : String
  inputStr : String
deriving Repr, DecidableEq

/-- What `processStream` returns for one turn. -/
structure StreamResult where
  textChunks : List String
  thinking : String
  toolCalls : List ToolCallM
  assistantContent : List Block
  stopReason : Option String
deriving Repr, DecidableEq

/-- Provider behavior on one turn: non-ok HTTP response, a thrown exception,
or a decoded stream. -/
inductive TurnResp
  | httpFail (status : Nat)
  | exn (message : String)
  | ok (r : StreamResult)
deriving Repr, DecidableEq

/-- Caller-visible events yielded by `query`. -/
inductive PEvent
  | sessionInit (sessionId : String)
  | text (content : String)
  | thinking (content : String)
  | toolUse (name inputStr id : String)
  | toolResult (result tool_use_id name : String)
  | error (message : String)
  | done
deriving Repr, DecidableEq

/-- The per-turn tool block of `query`: for each decoded call, in order,
yield `tool_use`, execute, yield `tool_result` with the same id, and collect
the result block for the history. -/
def toolPhase (execT : String → String → String) :
    List ToolCallM → List PEvent × List ToolResultBlock
  | [] => ([], [])
  | c :: rest =>
    let r := execT c.name c.inputStr
    let acc := toolPhase execT rest
    (PEvent.toolUse c.name c.inputStr c.id :: PEvent.toolResult r c.id c.name :: acc.1,
     { tool_use_id := c.id, content := r } :: acc.2)

/-- Outcome of the `while (continueLoop && turn < maxTurns)` loop. -/
structure LoopOut where
  events : List PEvent
  history : List Msg
  turn : Nat
  aborted : Bool
deriving Repr, DecidableEq

/-- The text appended when the turn cap is reached. -/
def maxTurnsNotice : String := "\n\n[Reached maximum turns]"

/-- The turn loop of `query`, fueled by the remaining turn budget
(`fuel = maxTurns - turn`, so the guard `turn < maxTurns` is the fuel being
positive).  An error (non-ok response or exception) yields one `error` event
and breaks with `aborted`.  A turn with tool calls appends the assistant
blocks and one user message of tool results to the history and continues; a
turn without tool calls appends the assistant blocks when nonempty and stops
(the additional `stopReason` check in the source sets the same flag and is
subsumed). -/
def queryLoop (execT : String → String → String) (script : Nat → TurnResp) :
    Nat → Nat → List Msg → LoopOut
  | 0, turn, hist => { events := [], history := hist, turn := turn, aborted := false }
  | fuel + 1, turn, hist =>
    let t := turn + 1
    match script t with
    | .httpFail status =>
      { events := [PEvent.error ("API error: " ++ toString status)],
        history := hist, turn := t, aborted := true }
    | .exn msg =>
      { events := [PEvent.error msg], history := hist, turn := t, aborted := true }
    | .ok r =>
      let textEvs := r.textChunks.map PEvent.text
      let thinkEvs := if r.thinking = "" then [] else [PEvent.thinking r.thinking]
      if r.toolCalls = [] then
        let hist₁ :=
          if r.assistantContent = [] then hist
          else addToHistory hist { role := "assistant", content := .blocks r.assistantContent }
        { events := textEvs ++ thinkEvs, history := hist₁, turn := t, aborted := false }
      else
        let tp := toolPhase execT r.toolCalls
        let hist₁ := addToHistory hist { role := "assistant", content := .blocks r.assistantContent }
        let hist₂ := addToHistory hist₁ { role := "user", content := .results tp.2 }
        let rest := queryLoop execT script fuel t hist₂
        { events := textEvs ++ thinkEvs ++ tp.1 ++ rest.events,
          history := rest.history, turn := rest.turn, aborted := rest.aborted }

/-- Full outcome of one `query` run. -/
structure QueryOut where
  events : List PEvent
  history : List Msg
  turn : Nat
  aborted : Bool
deriving Repr, DecidableEq

/-- `AntigravityProvider.query`: push the user prompt, yield `session_init`,
run the turn loop, then emit the max-turns notice when the cap was reached
and finally `done` — unconditionally, whether or not the loop aborted. -/
def query (execT : String → String → String) (script : Nat → TurnResp)
    (maxTurns : Nat) (chatId prompt : String) (hist₀ : List Msg) : QueryOut :=
  let hist := addToHistory hist₀ { role := "user", content := .str prompt }
  let lo := queryLoop execT script maxTurns 0 hist
  let notice := if lo.turn ≥ maxTurns then [PEvent.text maxTurnsNotice] else []
  { events := PEvent.sessionInit chatId :: (lo.events ++ notice ++ [PEvent.done]),
    history := lo.history, turn := lo.turn, aborted := lo.aborted }

/-- Correlation ids of the `tool_use` events of an event list, in order. -/
def useIds (evs : List PEvent) : List String :=
  evs.filterMap (fun e =>
    match e with
    | PEvent.toolUse _ _ id => some id
    | _ => none)

/-- Correlation ids of the `tool_result` events of an event list, in order. -/
def resIds (evs : List PEvent) : List String :=
  evs.filterMap (fun e =>
    match e with
    | PEvent.toolResult _ id _ => some id
    | _ => none)

/-- A script in which every turn returns at least one tool call. -/
def alwaysToolResp : TurnResp → Bool
  | .ok r => !(decide (r.toolCalls = []))
  | _ => false

theorem toolPhase_events (execT : String → String → String) (calls : List ToolCallM) :
    (toolPhase execT calls).1 = calls.bind (fun c =>
      [PEvent.toolUse c.name c.inputStr c.id,
       PEvent.toolResult (execT c.name c.inputStr) c.id c.name]) := by
  induction calls with
  | nil => rfl
  | cons c rest ih => simp [toolPhase, ih]

theorem useIds_append (a b : List PEvent) : useIds (a ++ b) = useIds a ++ useIds b := by
  simp [useIds, List.filterMap_append]

theorem resIds_append (a b : List PEvent) : resIds (a ++ b) = resIds a ++ resIds b := by
  simp [resIds, List.filterMap_append]

theorem useIds_toolPhase (execT : String → String → String) (calls : List ToolCallM) :
    useIds (toolPhase execT calls).1 = calls.map (fun c => c.id) := by
  induction calls with
  | nil => rfl
  | cons c rest ih =>
    simp only [toolPhase, useIds, List.filterMap_cons] at ih ⊢
    simp [ih]

theorem resIds_toolPhase (execT : String → String → String) (calls : List ToolCallM) :
    resIds (toolPhase execT calls).1 = calls.map (fun c => c.id) := by
  induction calls with
  | nil => rfl
  | cons c rest ih =>
    simp only [toolPhase, resIds, List.filterMap_cons] at ih ⊢
    simp [ih]

theorem useIds_textChunks (l : List String) : useIds (l.map PEvent.text) = [] := by
  induction l <;> simp [useIds, List.filterMap_cons, *]

theorem resIds_textChunks (l : List String) : resIds (l.map PEvent.text) = [] := by
  induction l <;> simp [resIds, List.filterMap_cons, *]

theorem useIds_thinkEvs (s : String) :
    useIds (if s = "" then [] else [PEvent.thinking s]) = [] := by
  split <;> rfl

theorem resIds_thinkEvs (s : String) :
    resIds (if s = "" then [] else [PEvent.thinking s]) = [] := by
  split <;> rfl

theorem queryLoop_ids (execT : String → String → String) (script : Nat → TurnResp) :
    ∀ fuel turn hist,
      useIds (queryLoop execT script fuel turn hist).events =
        resIds (queryLoop execT script fuel turn hist).events := by
  intro fuel
  induction fuel with
  | zero => intro turn hist; rfl
  | succ n ih =>
    intro turn hist
    simp only [queryLoop]
    cases hs : script (turn + 1) with
    | httpFail status => rfl
    | exn m => rfl
    | ok r =>
      by_cases htc : r.toolCalls = []
      · simp [htc, useIds_append, resIds_append, useIds_textChunks, resIds_textChunks,
          useIds_thinkEvs, resIds_thinkEvs]
      · simp [htc, useIds_append, resIds_append, useIds_textChunks, resIds_textChunks,
          useIds_thinkEvs, resIds_thinkEvs, useIds_toolPhase, resIds_toolPhase, ih]

theorem useIds_query (execT : String → String → String) (script : Nat → TurnResp)
    (maxTurns : Nat) (chatId prompt : String) (hist₀ : List Msg) :
    useIds (query execT script maxTurns chatId prompt hist₀).events =
      useIds (queryLoop execT script maxTurns 0
        (addToHistory hist₀ { role := "user", content := .str prompt })).events := by
  unfold query
  by_cases hn : (queryLoop execT script maxTurns 0
      (addToHistory hist₀ { role := "user", content := .str prompt })).turn ≥ maxTurns
  · simp [hn, useIds, List.filterMap_append, List.filterMap_cons]
  · simp [hn, useIds, List.filterMap_append, List.filterMap_cons]

theorem resIds_query (execT : String → String → String) (script : Nat → TurnResp)
    (maxTurns : Nat) (chatId prompt : String) (hist₀ : List Msg) :
    resIds (query execT script maxTurns chatId prompt hist₀).events =
      resIds (queryLoop execT script maxTurns 0
        (addToHistory hist₀ { role := "user", content := .str prompt })).events := by
  unfold query
  by_cases hn : (queryLoop execT script maxTurns 0
      (addToHistory hist₀ { role := "user", content := .str prompt })).turn ≥ maxTurns
  · simp [hn, resIds, List.filterMap_append, List.filterMap_cons]
  · simp [hn, resIds, List.filterMap_append, List.filterMap_cons]

/-- C3: in every turn the controller emits, for a decoded call sequence, the
alternating sequence `tool_use, tool_result, tool_use, tool_result, …` — one
result per call, immediately after it, carrying the same correlation id (the
first conjunct); consequently both the per-phase and the whole-run sequences
of `tool_use` ids and `tool_result` ids coincide, in order. -/
theorem tool_results_match_calls_in_order (execT : String → String → String)
    (script : Nat → TurnResp) (calls : List ToolCallM) (maxTurns : Nat)
    (chatId prompt : String) (hist₀ : List Msg) :
    (toolPhase execT calls).1 = calls.bind (fun c =>
      [PEvent.toolUse c.name c.inputStr c.id,
       PEvent.toolResult (execT c.name c.inputStr) c.id c.name]) ∧
    useIds (toolPhase execT calls).1 = calls.map (fun c => c.id) ∧
    resIds (toolPhase execT calls).1 = calls.map (fun c => c.id) ∧
    useIds (query execT script maxTurns chatId prompt hist₀).events =
      resIds (query execT script maxTurns chatId prompt hist₀).events := by
  refine ⟨toolPhase_events execT calls, useIds_toolPhase execT calls,
    resIds_toolPhase execT calls, ?_⟩
  rw [useIds_query, resIds_query]
  exact queryLoop_ids execT script maxTurns 0 _

theorem toolPhase_no_done (execT : String → String → String) (calls : List ToolCallM) :
    PEvent.done ∉ (toolPhase execT calls).1 := by
  rw [toolPhase_events]
  intro hmem
  rcases List.mem_bind.mp hmem with ⟨c, _, hc⟩
  simp at hc

theorem queryLoop_no_done (execT : String → String → String) (script : Nat → TurnResp) :
    ∀ fuel turn hist,
      PEvent.done ∉ (queryLoop execT script fuel turn hist).events := by
  intro fuel
  induction fuel with
  | zero =>
    intro turn hist hmem
    simp [queryLoop] at hmem
  | succ n ih =>
    intro turn hist hmem
    simp only [queryLoop] at hmem
    cases hs : script (turn + 1) with
    | httpFail status =>
      (try rw [hs] at hmem)
      simp at hmem
    | exn m =>
      (try rw [hs] at hmem)
      simp at hmem
    | ok r =>
      (try rw [hs] at hmem)
      dsimp only at hmem
      by_cases htc : r.toolCalls = []
      · rw [if_pos htc] at hmem
        simp only [List.mem_append] at hmem
        rcases hmem with hmem | hmem
        · rcases List.mem_map.mp hmem with ⟨x, _, hx⟩
          cases hx
        · revert hmem
          split
          · intro hmem; simp at hmem
          · intro hmem; simp at hmem
      · rw [if_neg htc] at hmem
        simp only [List.mem_append] at hmem
        rcases hmem with ((hmem | hmem) | hmem) | hmem
        · rcases List.mem_map.mp hmem with ⟨x, _, hx⟩
          cases hx
        · revert hmem
          split
          · intro hmem; simp at hmem
          · intro hmem; simp at hmem
        · exact toolPhase_no_done execT r.toolCalls hmem
        · exact ih _ _ hmem

theorem queryLoop_abort_error (execT : String → String → String) (script : Nat → TurnResp) :
    ∀ fuel turn hist,
      (queryLoop execT script fuel turn hist).aborted = true →
      ∃ m, PEvent.error m ∈ (queryLoop execT script fuel turn hist).events := by
  intro fuel
  induction fuel with
  | zero =>
    intro turn hist hab
    simp [queryLoop] at hab
  | succ n ih =>
    intro turn hist hab
    simp only [queryLoop] at hab ⊢
    cases hs : script (turn + 1) with
    | httpFail status => exact ⟨"API error: " ++ toString status, by simp⟩
    | exn m => exact ⟨m, by simp⟩
    | ok r =>
      (try rw [hs] at hab)
      dsimp only at hab ⊢
      by_cases htc : r.toolCalls = []
      · rw [if_pos htc] at hab
        simp at hab
      · rw [if_neg htc] at hab ⊢
        dsimp only at hab
        rcases ih (turn + 1) _ hab with ⟨m, hm⟩
        exact ⟨m, by simp [hm]⟩

theorem query_events_shape (execT : String → String → String) (script : Nat → TurnResp)
    (maxTurns : Nat) (chatId prompt : String) (hist₀ : List Msg) :
    (query execT script maxTurns chatId prompt hist₀).events =
      PEvent.sessionInit chatId ::
        ((queryLoop execT script maxTurns 0
            (addToHistory hist₀ { role := "user", content := MsgContent.str prompt })).events ++
         (if (queryLoop execT script maxTurns 0
                (addToHistory hist₀ { role := "user", content := MsgContent.str prompt })).turn ≥ maxTurns
           then [PEvent.text maxTurnsNotice] else []) ++ [PEvent.done]) := rfl

theorem getLast?_evshape (c : PEvent) (a b : List PEvent) :
    (c :: (a ++ b ++ [PEvent.done])).getLast? = some PEvent.done := by
  have hsh : c :: (a ++ b ++ [PEvent.done]) = (c :: (a ++ b)) ++ [PEvent.done] := by
    simp
  rw [hsh, List.getLast?_concat]

/-- C2 (amended): every run of `query` yields a stream that begins with
`session_init` and ends with exactly one `done` event, which occurs nowhere
else; when the run aborts (non-ok provider response or thrown exception) an
`error` event is emitted, but `done` — not `error` — is still the terminal
event, because the source yields `done` unconditionally after the loop.
(The claim as frozen, that `error` is the terminal event of an aborted run
with nothing after it, is refuted by `error_event_not_terminal_on_abort`.) -/
theorem query_stream_done_terminal (execT : String → String → String)
    (script : Nat → TurnResp) (maxTurns : Nat) (chatId prompt : String)
    (hist₀ : List Msg) :
    (query execT script maxTurns chatId prompt hist₀).events.head? =
      some (PEvent.sessionInit chatId) ∧
    (query execT script maxTurns chatId prompt hist₀).events.getLast? =
      some PEvent.done ∧
    (query execT script maxTurns chatId prompt hist₀).events.count PEvent.done = 1 ∧
    ((query execT script maxTurns chatId prompt hist₀).aborted = true →
      ∃ m, PEvent.error m ∈ (query execT script maxTurns chatId prompt hist₀).events) := by
  refine ⟨rfl, ?_, ?_, ?_⟩
  · rw [query_events_shape]
    exact getLast?_evshape (PEvent.sessionInit chatId) _ _
  · have h₀ : (queryLoop execT script maxTurns 0
        (addToHistory hist₀ { role := "user", content := MsgContent.str prompt })).events.count
        PEvent.done = 0 :=
      List.count_eq_zero.mpr (queryLoop_no_done execT script maxTurns 0 _)
    rw [query_events_shape, List.count_cons, List.count_append, List.count_append, h₀]
    split
    · simp
    · simp
  · intro hab
    have hab₁ : (queryLoop execT script maxTurns 0
        (addToHistory hist₀ { role := "user", content := MsgContent.str prompt })).aborted = true := hab
    rcases queryLoop_abort_error execT script maxTurns 0 _ hab₁ with ⟨m, hm⟩
    exact ⟨m, by simp [query, hm]⟩

/-- The constantly failing provider script. -/
def scriptFail : Nat → TurnResp := fun _ => TurnResp.httpFail 500

/-- Trivial tool oracle for examples. -/
def execTDemo : String → String → String := fun _ _ => "ok"

/-- C2 counterexample: a run whose first provider call returns a non-ok
response aborts, yet the event stream is `session_init, error, done` — the
terminal event is `done`, an event follows the `error`, so `error` is not
the terminal event of the aborted run. -/
theorem error_event_not_terminal_on_abort :
    (query execTDemo scriptFail 50 "c1" "hi" []).aborted = true ∧
    (query execTDemo scriptFail 50 "c1" "hi" []).events =
      [PEvent.sessionInit "c1", PEvent.error "API error: 500", PEvent.done] := by
  refine ⟨rfl, ?_⟩
  rfl

theorem queryLoop_turn_le (execT : String → String → String) (script : Nat → TurnResp) :
    ∀ fuel turn hist,
      (queryLoop execT script fuel turn hist).turn ≤ turn + fuel := by
  intro fuel
  induction fuel with
  | zero => intro turn hist; simp [queryLoop]
  | succ n ih =>
    intro turn hist
    simp only [queryLoop]
    cases hs : script (turn + 1) with
    | httpFail status =>
      dsimp only
      omega
    | exn m =>
      dsimp only
      omega
    | ok r =>
      dsimp only
      by_cases htc : r.toolCalls = []
      · rw [if_pos htc]
        dsimp only
        omega
      · rw [if_neg htc]
        have := ih (turn + 1) (addToHistory
          (addToHistory hist { role := "assistant", content := .blocks r.assistantContent })
          { role := "user", content := .results (toolPhase execT r.toolCalls).2 })
        dsimp only
        omega

theorem queryLoop_always_tools (execT : String → String → String) (script : Nat → TurnResp)
    (h : ∀ n, alwaysToolResp (script n) = true) :
    ∀ fuel turn hist,
      (queryLoop execT script fuel turn hist).turn = turn + fuel ∧
      (queryLoop execT script fuel turn hist).aborted = false := by
  intro fuel
  induction fuel with
  | zero => intro turn hist; simp [queryLoop]
  | succ n ih =>
    intro turn hist
    simp only [queryLoop]
    cases hs : script (turn + 1) with
    | httpFail status => exact absurd (h (turn + 1)) (by simp [hs, alwaysToolResp])
    | exn m => exact absurd (h (turn + 1)) (by simp [hs, alwaysToolResp])
    | ok r =>
      have htc : ¬ (r.toolCalls = []) := by
        have hh := h (turn + 1)
        rw [hs] at hh
        simp [alwaysToolResp] at hh
        exact hh
      dsimp only
      rw [if_neg htc]
      have := ih (turn + 1) (addToHistory
        (addToHistory hist { role := "assistant", content := .blocks r.assistantContent })
        { role := "user", content := .results (toolPhase execT r.toolCalls).2 })
      dsimp only
      constructor
      · rw [this.1]
        omega
      · exact this.2

/-- C7: the turn loop runs at most `maxTurns` iterations, and under a
provider that returns tool calls on every turn (no tool ever has to
succeed — the oracle result is arbitrary) it runs exactly `maxTurns` turns
without aborting and the stream ends with the max-turns notice text followed
by the terminal `done`. -/
theorem turn_loop_bounded_maxturns (execT : String → String → String)
    (script : Nat → TurnResp) (maxTurns : Nat) (chatId prompt : String)
    (hist₀ : List Msg)
    (h : ∀ n, alwaysToolResp (script n) = true) :
    (query execT script maxTurns chatId prompt hist₀).turn ≤ maxTurns ∧
    (query execT script maxTurns chatId prompt hist₀).turn = maxTurns ∧
    (query execT script maxTurns chatId prompt hist₀).aborted = false ∧
    ∃ evs, (query execT script maxTurns chatId prompt hist₀).events =
      PEvent.sessionInit chatId ::
        (evs ++ [PEvent.text maxTurnsNotice, PEvent.done]) := by
  have hle := queryLoop_turn_le execT script maxTurns 0
    (addToHistory hist₀ { role := "user", content := .str prompt })
  have hall := queryLoop_always_tools execT script h maxTurns 0
    (addToHistory hist₀ { role := "user", content := .str prompt })
  have hturn : (query execT script maxTurns chatId prompt hist₀).turn = maxTurns := by
    simp only [query]
    rw [hall.1]
    omega
  refine ⟨by rw [hturn], hturn, ?_, ?_⟩
  · simp only [query]
    exact hall.2
  · refine ⟨(queryLoop execT script maxTurns 0
      (addToHistory hist₀ { role := "user", content := .str prompt })).events, ?_⟩
    simp only [query]
    rw [hall.1]
    simp

/-- Always-tools demonstration script: one tool call per turn. -/
def scriptTools : Nat → TurnResp := fun _ =>
  TurnResp.ok
    { textChunks := [], thinking := "",
      toolCalls := [{ id := "t1", name := "Read", inputStr := "x" }],
      assistantContent := [Block.toolUseBlock "t1" "Read" "x"],
      stopReason := none }

theorem turn_loop_bounded_maxturns_witness :
    (∀ n, alwaysToolResp (scriptTools n) = true) ∧
      ((query execTDemo scriptTools 2 "c1" "go" []).turn ≤ 2 ∧
       (query execTDemo scriptTools 2 "c1" "go" []).turn = 2 ∧
       (query execTDemo scriptTools 2 "c1" "go" []).aborted = false ∧
       ∃ evs, (query execTDemo scriptTools 2 "c1" "go" []).events =
         PEvent.sessionInit "c1" ::
           (evs ++ [PEvent.text maxTurnsNotice, PEvent.done])) :=
  ⟨fun _ => rfl,
   turn_loop_bounded_maxturns execTDemo scriptTools 2 "c1" "go" [] (fun _ => rfl)⟩

/-- Filler message for the history-trim examples. -/
def fillerMsg : Msg := { role := "user", content := .str "filler" }

/-- An assistant message holding one tool-use block. -/
def pairAssistant : Msg :=
  { role := "assistant", content := .blocks [Block.toolUseBlock "t1" "Read" "\x7b\x7d"] }

/-- Its paired user message carrying the tool result. -/
def pairUser : Msg :=
  { role := "user", content := .results [{ tool_use_id := "t1", content := "ok" }] }

/-- A 100-entry history in which the tool-use message sits at index 20 and
its paired tool-result message at index 21 — exactly at the cut the next
trim will make. -/
def hist100 : List Msg :=
  List.replicate 20 fillerMsg ++ [pairAssistant, pairUser] ++ List.replicate 78 fillerMsg

/-- C4 counterexample: pushing one more message onto `hist100` trims to the
most recent 80 entries and cuts between the adjacent pair: the user message
carrying the tool result for id `t1` is kept (it becomes the new head) while
the assistant message holding the paired tool-use block is dropped from the
history entirely. -/
theorem history_trim_splits_tool_pair :
    hist100.length = 100 ∧
    hist100.get? 20 = some pairAssistant ∧
    hist100.get? 21 = some pairUser ∧
    (addToHistory hist100 fillerMsg).head? = some pairUser ∧
    pairAssistant ∉ addToHistory hist100 fillerMsg := by
  refine ⟨rfl, rfl, rfl, rfl, ?_⟩
  decide

/-- C4 (amended): the trim does keep the history within a bounded window and
drops oldest entries first — the result of `addToHistory` is always a suffix
of the pushed history, its length never exceeds 100, and as soon as the push
exceeds 100 entries it is cut to exactly the most recent 80.  Pair
preservation, however, does not hold: the cut is a blind splice and can
separate an assistant tool-use message from its adjacent tool-result message
(see `history_trim_splits_tool_pair`). -/
theorem history_trim_bounded_suffix (hist : List Msg) (m : Msg)
    (h : hist.length ≤ 100) :
    (addToHistory hist m).length ≤ 100 ∧
    (addToHistory hist m) <:+ (hist ++ [m]) ∧
    ((hist ++ [m]).length > 100 → (addToHistory hist m).length = 80) := by
  simp only [addToHistory]
  by_cases hc : (hist ++ [m]).length > 100
  · have hlen : (hist ++ [m]).length = 101 := by
      simp only [List.length_append, List.length_singleton] at hc ⊢
      omega
    rw [if_pos hc]
    refine ⟨?_, List.drop_suffix _ _, fun _ => ?_⟩
    · rw [List.length_drop, hlen]
      omega
    · rw [List.length_drop, hlen]
  · rw [if_neg hc]
    refine ⟨?_, List.suffix_refl _, fun hcon => absurd hcon hc⟩
    simp only [List.length_append, List.length_singleton] at hc ⊢
    omega

theorem history_trim_bounded_suffix_witness :
    ([] : List Msg).length ≤ 100 ∧
      ((addToHistory [] fillerMsg).length ≤ 100 ∧
       (addToHistory [] fillerMsg) <:+ ([] ++ [fillerMsg]) ∧
       (([] ++ [fillerMsg]).length > 100 → (addToHistory [] fillerMsg).length = 80)) :=
  ⟨by decide, history_trim_bounded_suffix [] fillerMsg (by decide)⟩

end Provider

theorem permission_resolution_idempotent_witness :
    (alookup "p1" sandboxStDemo.pendingPermissions = some permDemo ∧
      alookup "p1" toolsStDemo.pendingPermissions = some permTDemo) ∧
      Sandbox.approvePermission pathEnvDemo "p1"
          ((Sandbox.approvePermission pathEnvDemo "p1" sandboxStDemo).2) =
        (none, (Sandbox.approvePermission pathEnvDemo "p1" sandboxStDemo).2) :=
  ⟨⟨by rfl, by rfl⟩,
   (permission_resolution_idempotent pathEnvDemo Tools.osEnvDemo "p1" sandboxStDemo
      toolsStDemo permDemo permTDemo (by rfl) (by rfl)).1.2.2⟩

/-!
WebSocket bridge: the browser-extension command channel of
`src/unnamed/part_001` (`sendCommand` and the triaging of incoming
`result` / `error` envelopes, lines 270-325).
-/

namespace Bridge

/-- One settlement of the promise of a pending request: the single
`resolve` or `reject` call made for that request id.  `rejectedTimeout`
carries the `action` of the command (the timeout callback rejects with
`Browser command ... timed out`); `rejectedError` carries the message of the
error envelope. -/
inductive Settlement where
  | resolvedWith (id : Nat)
  | rejectedTimeout (id : Nat) (action : String)
  | rejectedError (id : Nat) (msg : String)
deriving DecidableEq, Repr

/-- The request id a settlement refers to. -/
def Settlement.rid : Settlement → Nat
  | .resolvedWith id => id
  | .rejectedTimeout id _ => id
  | .rejectedError id _ => id

/-- Module state of the bridge: `requestIdCounter` and `pendingRequests`
from the source (the map value is the `action` of the request; the stored
`resolve` / `reject` / `timeout` closures are represented by the
instrumentation field `settledLog`, which records every `resolve` /
`reject` call actually made). -/
structure BridgeState where
  requestIdCounter : Nat
  pendingRequests : List (Nat × String)
  settledLog : List Settlement
deriving DecidableEq, Repr

/-- Initial module state (`let pendingRequests = new Map(); let
requestIdCounter = 0;`). -/
def bridgeInit : BridgeState :=
  { requestIdCounter := 0, pendingRequests := [], settledLog := [] }

/-- Observable bridge events: a `sendCommand(action, ...)` call, the firing
of the 30-second timer of a request, an incoming `result` / `error`
envelope, and an incoming `register` message.  A timer for id `id` can fire
only while the entry is still pending: the entry is created when the timer
is armed and removed exactly when the timer is cleared (message handler) or
has fired (the delete in the callback itself), and ids are never reused, so
`timerFire` on a non-pending id models a fire that `clearTimeout` prevented
and is a no-op. -/
inductive BridgeEv where
  | send (action : String)
  | timerFire (id : Nat)
  | resultMsg (id : Nat)
  | errorMsg (id : Nat) (msg : String)
  | register
deriving DecidableEq, Repr

/-- One step of the bridge.  `send`: `const id = ++requestIdCounter;` then
`pendingRequests.set(id, { resolve, reject, timeout })`.  `timerFire`: the
`setTimeout` callback `pendingRequests.delete(id); reject(new Error(...timed
out))`, guarded as explained at `BridgeEv`.  `resultMsg` / `errorMsg`: the
message-handler branch `const pending = pendingRequests.get(message.id); if
(pending) { clearTimeout(...); pendingRequests.delete(message.id); }` with
`resolve` or `reject` — nothing happens when the id is unknown.  `register`
does not touch the request state. -/
def bridgeStep (st : BridgeState) : BridgeEv → BridgeState
  | .send action =>
    let id := st.requestIdCounter + 1
    { requestIdCounter := id,
      pendingRequests := aset id action st.pendingRequests,
      settledLog := st.settledLog }
  | .timerFire id =>
    match alookup id st.pendingRequests with
    | some action =>
      { st with pendingRequests := aerase id st.pendingRequests,
                settledLog := st.settledLog ++ [Settlement.rejectedTimeout id action] }
    | none => st
  | .resultMsg id =>
    match alookup id st.pendingRequests with
    | some _ =>
      { st with pendingRequests := aerase id st.pendingRequests,
                settledLog := st.settledLog ++ [Settlement.resolvedWith id] }
    | none => st
  | .errorMsg id msg =>
    match alookup id st.pendingRequests with
    | some _ =>
      { st with pendingRequests := aerase id st.pendingRequests,
                settledLog := st.settledLog ++ [Settlement.rejectedError id msg] }
    | none => st
  | .register => st

/-- Running the bridge over a sequence of events. -/
def bridgeRun (st : BridgeState) (evs : List BridgeEv) : BridgeState :=
  evs.foldl bridgeStep st

/-- How many times request `id` has been settled. -/
def settleCount (st : BridgeState) (id : Nat) : Nat :=
  st.settledLog.countP (fun s => decide (s.rid = id))

/-- Bridge invariant: every id is settled at most once, a pending id is
unsettled and positive, and every id mentioned anywhere is at most the
counter (so a freshly allocated id is unused). -/
def BridgeInv (st : BridgeState) : Prop :=
  (∀ id, settleCount st id ≤ 1) ∧
  (∀ id action, alookup id st.pendingRequests = some action →
      settleCount st id = 0 ∧ 0 < id ∧ id ≤ st.requestIdCounter) ∧
  (∀ s, s ∈ st.settledLog → s.rid ≤ st.requestIdCounter)

theorem bridgeInv_init : BridgeInv bridgeInit := by
  refine ⟨fun id => by simp [settleCount, bridgeInit], ?_, ?_⟩
  · intro id action h
    simp [bridgeInit, alookup] at h
  · intro s hs
    simp [bridgeInit] at hs

theorem settleCount_append_other {l : List Settlement} {s : Settlement}
    {id : Nat} (h : s.rid ≠ id) :
    (List.countP (fun x => decide (x.rid = id)) (l ++ [s])) =
      List.countP (fun x => decide (x.rid = id)) l := by
  simp [List.countP_append, h]

theorem bridgeInv_step {st : BridgeState} (hinv : BridgeInv st) (e : BridgeEv) :
    BridgeInv (bridgeStep st e) := by
  obtain ⟨h₁, h₂, h₃⟩ := hinv
  cases e with
  | send action =>
    refine ⟨fun id => h₁ id, ?_, ?_⟩
    · intro id act hl
      by_cases hid : id = st.requestIdCounter + 1
      · subst hid
        refine ⟨?_, by omega, by simp [bridgeStep]⟩
        have hz : ∀ s ∈ st.settledLog, ¬ (s.rid = st.requestIdCounter + 1) := by
          intro s hs hcon
          have := h₃ s hs
          omega
        simp only [settleCount, bridgeStep]
        rw [List.countP_eq_zero]
        intro s hs
        simpa using hz s hs
      · simp only [bridgeStep] at hl
        rw [alookup_aset_of_ne _ _ hid] at hl
        obtain ⟨ha, hb, hc⟩ := h₂ id act hl
        exact ⟨ha, hb, by simp [bridgeStep]; omega⟩
    · intro s hs
      have := h₃ s hs
      simp [bridgeStep]
      omega
  | timerFire id =>
    simp only [bridgeStep]
    cases hl : alookup id st.pendingRequests with
    | none => exact ⟨h₁, h₂, h₃⟩
    | some action =>
      obtain ⟨hz, hpos, hle⟩ := h₂ id action hl
      refine ⟨?_, ?_, ?_⟩
      · intro id₁
        by_cases hid : id₁ = id
        · subst hid
          simp only [settleCount] at hz ⊢
          rw [List.countP_append, hz]
          simp [List.countP_cons, Settlement.rid]
        · have : (Settlement.rejectedTimeout id action).rid ≠ id₁ := by
            simp [Settlement.rid]
            omega
          simp only [settleCount]
          rw [settleCount_append_other this]
          exact h₁ id₁
      · intro id₁ act₁ hl₁
        by_cases hid : id₁ = id
        · subst hid
          rw [alookup_aerase_self] at hl₁
          cases hl₁
        · rw [alookup_aerase_of_ne _ hid] at hl₁
          obtain ⟨ha, hb, hc⟩ := h₂ id₁ act₁ hl₁
          have : (Settlement.rejectedTimeout id action).rid ≠ id₁ := by
            simp [Settlement.rid]
            omega
          refine ⟨?_, hb, hc⟩
          simp only [settleCount]
          rw [settleCount_append_other this]
          exact ha
      · intro s hs
        rcases List.mem_append.mp hs with hs | hs
        · exact h₃ s hs
        · simp at hs
          subst hs
          simpa [Settlement.rid] using hle
  | resultMsg id =>
    simp only [bridgeStep]
    cases hl : alookup id st.pendingRequests with
    | none => exact ⟨h₁, h₂, h₃⟩
    | some action =>
      obtain ⟨hz, hpos, hle⟩ := h₂ id action hl
      refine ⟨?_, ?_, ?_⟩
      · intro id₁
        by_cases hid : id₁ = id
        · subst hid
          simp only [settleCount] at hz ⊢
          rw [List.countP_append, hz]
          simp [List.countP_cons, Settlement.rid]
        · have : (Settlement.resolvedWith id).rid ≠ id₁ := by
            simp [Settlement.rid]
            omega
          simp only [settleCount]
          rw [settleCount_append_other this]
          exact h₁ id₁
      · intro id₁ act₁ hl₁
        by_cases hid : id₁ = id
        · subst hid
          rw [alookup_aerase_self] at hl₁
          cases hl₁
        · rw [alookup_aerase_of_ne _ hid] at hl₁
          obtain ⟨ha, hb, hc⟩ := h₂ id₁ act₁ hl₁
          have : (Settlement.resolvedWith id).rid ≠ id₁ := by
            simp [Settlement.rid]
            omega
          refine ⟨?_, hb, hc⟩
          simp only [settleCount]
          rw [settleCount_append_other this]
          exact ha
      · intro s hs
        rcases List.mem_append.mp hs with hs | hs
        · exact h₃ s hs
        · simp at hs
          subst hs
          simpa [Settlement.rid] using hle
  | errorMsg id msg =>
    simp only [bridgeStep]
    cases hl : alookup id st.pendingRequests with
    | none => exact ⟨h₁, h₂, h₃⟩
    | some action =>
      obtain ⟨hz, hpos, hle⟩ := h₂ id action hl
      refine ⟨?_, ?_, ?_⟩
      · intro id₁
        by_cases hid : id₁ = id
        · subst hid
          simp only [settleCount] at hz ⊢
          rw [List.countP_append, hz]
          simp [List.countP_cons, Settlement.rid]
        · have : (Settlement.rejectedError id msg).rid ≠ id₁ := by
            simp [Settlement.rid]
            omega
          simp only [settleCount]
          rw [settleCount_append_other this]
          exact h₁ id₁
      · intro id₁ act₁ hl₁
        by_cases hid : id₁ = id
        · subst hid
          rw [alookup_aerase_self] at hl₁
          cases hl₁
        · rw [alookup_aerase_of_ne _ hid] at hl₁
          obtain ⟨ha, hb, hc⟩ := h₂ id₁ act₁ hl₁
          have : (Settlement.rejectedError id msg).rid ≠ id₁ := by
            simp [Settlement.rid]
            omega
          refine ⟨?_, hb, hc⟩
          simp only [settleCount]
          rw [settleCount_append_other this]
          exact ha
      · intro s hs
        rcases List.mem_append.mp hs with hs | hs
        · exact h₃ s hs
        · simp at hs
          subst hs
          simpa [Settlement.rid] using hle
  | register => exact ⟨h₁, h₂, h₃⟩

theorem bridgeInv_run (evs : List BridgeEv) :
    ∀ st : BridgeState, BridgeInv st → BridgeInv (bridgeRun st evs) := by
  induction evs with
  | nil => intro st h; exact h
  | cons e rest ih =>
    intro st h
    exact ih (bridgeStep st e) (bridgeInv_step h e)

theorem timerFire_noop_of_none {st : BridgeState} {id : Nat}
    (h : alookup id st.pendingRequests = none) :
    bridgeStep st (BridgeEv.timerFire id) = st := by
  simp only [bridgeStep, h]

/-- Demo bridge state: the module state right after one `sendCommand`
(counter 1, the request pending under id 1, nothing settled). -/
def bridgeStDemo : BridgeState := bridgeStep bridgeInit (BridgeEv.send "screenshot")

/-- C8: a request of the bridge is never resolved or rejected twice.  Along
any event sequence from the initial bridge state every request id settles at
most once; on a still-pending id, a timeout fire removes the pending entry
and rejects with the timeout error and a second fire of the same timer is a
no-op; a `result` envelope arriving first removes the entry and resolves the
promise, after which the (cleared) timer firing is a no-op; an `error`
envelope likewise removes the entry and rejects with the message of the
envelope, after which the timer firing is a no-op. -/
theorem bridge_request_settles_once (evs : List BridgeEv)
    (st : BridgeState) (id : Nat) (action msg : String)
    (hp : alookup id st.pendingRequests = some action) :
    (∀ rid, settleCount (bridgeRun bridgeInit evs) rid ≤ 1) ∧
    (alookup id (bridgeStep st (BridgeEv.timerFire id)).pendingRequests = none ∧
     (bridgeStep st (BridgeEv.timerFire id)).settledLog =
       st.settledLog ++ [Settlement.rejectedTimeout id action] ∧
     bridgeStep (bridgeStep st (BridgeEv.timerFire id)) (BridgeEv.timerFire id) =
       bridgeStep st (BridgeEv.timerFire id)) ∧
    (alookup id (bridgeStep st (BridgeEv.resultMsg id)).pendingRequests = none ∧
     (bridgeStep st (BridgeEv.resultMsg id)).settledLog =
       st.settledLog ++ [Settlement.resolvedWith id] ∧
     bridgeStep (bridgeStep st (BridgeEv.resultMsg id)) (BridgeEv.timerFire id) =
       bridgeStep st (BridgeEv.resultMsg id)) ∧
    (alookup id (bridgeStep st (BridgeEv.errorMsg id msg)).pendingRequests = none ∧
     (bridgeStep st (BridgeEv.errorMsg id msg)).settledLog =
       st.settledLog ++ [Settlement.rejectedError id msg] ∧
     bridgeStep (bridgeStep st (BridgeEv.errorMsg id msg)) (BridgeEv.timerFire id) =
       bridgeStep st (BridgeEv.errorMsg id msg)) := by
  refine ⟨fun rid => (bridgeInv_run evs bridgeInit bridgeInv_init).1 rid, ?_, ?_, ?_⟩
  all_goals refine ⟨?_, ?_, ?_⟩
  all_goals simp only [bridgeStep, hp]
  all_goals
    first
      | exact alookup_aerase_self id st.pendingRequests
      | rfl
      | (rw [alookup_aerase_self])

theorem bridge_request_settles_once_witness :
    alookup 1 bridgeStDemo.pendingRequests = some "screenshot" ∧
    ((∀ rid, settleCount (bridgeRun bridgeInit []) rid ≤ 1) ∧
     bridgeStep (bridgeStep bridgeStDemo (BridgeEv.timerFire 1)) (BridgeEv.timerFire 1) =
       bridgeStep bridgeStDemo (BridgeEv.timerFire 1)) :=
  ⟨rfl,
   (bridge_request_settles_once [] bridgeStDemo 1 "screenshot" "boom" rfl).1,
   (bridge_request_settles_once [] bridgeStDemo 1 "screenshot" "boom" rfl).2.1.2.2⟩

end Bridge

end Nimbus
